import Mathlib

/-!
# Graliffer core : a shallow embedding

This file embeds the execution core of the Graliffer interpreter
(grid / head / stack model, operand resolution, opcode evaluation and the
reversible-action history engine) as executable Lean definitions, translated
from the Rust sources:

  * `src/frame/grid/position.rs` : `PositionAxis`, `Position`
  * `src/frame/grid/cell.rs`     : `Cell` (strings are lists of chars; the
    `unicode_segmentation` grapheme clustering the source counts with is
    modelled by a UAX #29 segmentation whose class tables are restricted
    to the characters used in this development)
  * `src/frame/grid.rs`          : `Grid` (the `HashMap` is modelled as an
    association list whose update removes every binding of the key, the
    observable behaviour of a hash map)
  * `src/frame/head.rs`          : `Head`
  * `src/frame/stack.rs`         : `Stack` (the `Vec` tail, where pushes and
    pops happen, is the head of the Lean list)
  * `src/lang/operand.rs`        : `Literal`, `Address`, `Pointer`, `Operand`
  * `src/lang/opcode.rs`         : `Opcode` and its evaluation
  * `src/frame.rs`               : `Frame`, `FrameAction`, `Frame::step`
  * `src/history.rs`             : `ReciprocalAction`, `Artifact`, `History`

Rust functions that may fail return `Option`; functions whose recursion is
not structurally bounded in the source (`Pointer::resolve_to_literal`,
`Opcode::evaluate`, `Frame::step`) take an explicit fuel argument and return
`none` when the fuel runs out, so that divergence of the source is visible
as `none` for every fuel.  Unicode characters are identified with their
scalar values (`Char.toNat`) where the source casts `char as u32`.
-/

/-! ## Direction (`src/utils.rs`) -/

inductive Direction where
  | Up
  | Right
  | Down
  | Left
deriving DecidableEq, Repr

/-! ## PositionAxis and Position (`src/frame/grid/position.rs`) -/

/-- `PositionAxis(u8)`: the numeric coordinate stored in the axis.  The Rust
field is private and every constructor enforces the range `[0, 63]`. -/
structure PositionAxis where
  val : Nat
deriving DecidableEq, Repr

namespace PositionAxis

def MIN_NUMERIC : Nat := 0

def MAX_NUMERIC : Nat := 63

def ORIGIN : PositionAxis := ⟨0⟩

/-- `PositionAxis::is_valid_numeric` -/
def is_valid_numeric (value : Nat) : Bool :=
  MIN_NUMERIC ≤ value ∧ value ≤ MAX_NUMERIC

/-- `PositionAxis::numeric_to_textual`, on Unicode scalar values.
The result char is returned as its scalar value. -/
def numeric_to_textual (coordinate : Nat) : Option Nat :=
  if ¬ is_valid_numeric coordinate then none
  else if coordinate ≤ 25 then some (coordinate + 65)      -- A-Z
  else if coordinate ≤ 51 then some (coordinate - 26 + 97) -- a-z
  else if coordinate ≤ 61 then some (coordinate - 52 + 48) -- 0-9
  else if coordinate = 62 then some 43                     -- +
  else if coordinate = 63 then some 47                     -- /
  else none

/-- `PositionAxis::textual_to_numeric`, on Unicode scalar values
(the source immediately casts the char to `u32`). -/
def textual_to_numeric (coordinate : Nat) : Option Nat :=
  if 65 ≤ coordinate ∧ coordinate ≤ 90 then some (coordinate - 65)        -- A-Z
  else if 97 ≤ coordinate ∧ coordinate ≤ 122 then some (coordinate - 97 + 26) -- a-z
  else if 48 ≤ coordinate ∧ coordinate ≤ 57 then some (coordinate - 48 + 52)  -- 0-9
  else if coordinate = 43 then some 62                                    -- +
  else if coordinate = 47 then some 63                                    -- /
  else none

/-- `PositionAxis::is_valid_textual`, on Unicode scalar values:
the char set `[A-Za-z0-9+/]`. -/
def is_valid_textual (value : Nat) : Bool :=
  (65 ≤ value ∧ value ≤ 90) ∨ (97 ≤ value ∧ value ≤ 122) ∨
    (48 ≤ value ∧ value ≤ 57) ∨ value = 43 ∨ value = 47

/-- `PositionAxis::from_numeric` -/
def from_numeric (coordinate : Nat) : Option PositionAxis :=
  if ¬ is_valid_numeric coordinate then none else some ⟨coordinate⟩

/-- `PositionAxis::from_textual` -/
def from_textual (coordinate : Char) : Option PositionAxis :=
  (textual_to_numeric coordinate.toNat).bind from_numeric

/-- `PositionAxis::as_numeric` -/
def as_numeric (a : PositionAxis) : Nat := a.val

/-- `PositionAxis::as_textual`; the source unwraps, the panic being
unreachable for axes respecting the range invariant.  The model defaults the
unreachable branch to scalar value 0. -/
def as_textual (a : PositionAxis) : Nat :=
  (numeric_to_textual a.val).getD 0

/-- `PositionAxis::checked_increment` (the `u32` addition of the source
cannot overflow on representable inputs, so only the range check remains). -/
def checked_increment (a : PositionAxis) (value : Nat) : Option PositionAxis :=
  from_numeric (a.val + value)

/-- `PositionAxis::checked_decrement` (`u32::checked_sub` fails on
underflow, then the range is rechecked). -/
def checked_decrement (a : PositionAxis) (value : Nat) : Option PositionAxis :=
  if value ≤ a.val then from_numeric (a.val - value) else none

end PositionAxis

/-- `Position { x, y }` -/
structure Position where
  x : PositionAxis
  y : PositionAxis
deriving DecidableEq, Repr

namespace Position

def ORIGIN : Position := ⟨PositionAxis.ORIGIN, PositionAxis.ORIGIN⟩

/-- `Position::from_position_axis` -/
def from_position_axis (x y : PositionAxis) : Position := ⟨x, y⟩

/-- `Position::from_numeric` -/
def from_numeric (x y : Nat) : Option Position :=
  (PositionAxis.from_numeric x).bind fun px =>
    (PositionAxis.from_numeric y).map fun py => ⟨px, py⟩

/-- `Position::from_textual` -/
def from_textual (x y : Char) : Option Position :=
  (PositionAxis.from_textual x).bind fun px =>
    (PositionAxis.from_textual y).map fun py => ⟨px, py⟩

/-- `Position::checked_increment_x` -/
def checked_increment_x (p : Position) (value : Nat) : Option Position :=
  (p.x.checked_increment value).map fun nx => ⟨nx, p.y⟩

/-- `Position::checked_increment_y` -/
def checked_increment_y (p : Position) (value : Nat) : Option Position :=
  (p.y.checked_increment value).map fun ny => ⟨p.x, ny⟩

/-- `Position::checked_decrement_x` -/
def checked_decrement_x (p : Position) (value : Nat) : Option Position :=
  (p.x.checked_decrement value).map fun nx => ⟨nx, p.y⟩

/-- `Position::checked_decrement_y` -/
def checked_decrement_y (p : Position) (value : Nat) : Option Position :=
  (p.y.checked_decrement value).map fun ny => ⟨p.x, ny⟩

/-- `Position::checked_step` -/
def checked_step (p : Position) (direction : Direction) (offset : Nat) :
    Option Position :=
  match direction with
  | .Up => p.checked_decrement_y offset
  | .Right => p.checked_increment_x offset
  | .Down => p.checked_increment_y offset
  | .Left => p.checked_decrement_x offset

/-- `Position::try_from(&str)`: reads the first two chars, ignoring the
rest of the string. -/
def tryFromChars (chars : List Char) : Option Position :=
  match chars with
  | x :: y :: _ => from_textual x y
  | _ => none

end Position

/-! ## Cell (`src/frame/grid/cell.rs`)

A `Cell` is a string of at most 3 graphemes.  Strings are modelled as lists
of chars (Unicode scalar values); the `unicode_segmentation` crate's
extended grapheme clusters (UAX #29), which the source uses to count and
trim graphemes, are modelled by the segmentation below.  Its character
class tables are restricted to the classes of the characters appearing in
this development — combining marks U+0300–U+036F (class Extend), the
zero-width joiner U+200D (class ZWJ), and the people emoji U+1F466–U+1F469
(class Extended_Pictographic); every other character is class Other, which
agrees with the real property tables for every character used here.  The
boundary rules are UAX #29 GB9 (no break before Extend or ZWJ) and GB11 (no
break between a pictographic-sequence ZWJ and a following pictographic). -/

/-- Class Extend (restricted table: the combining diacritical marks). -/
def isExtendChar (c : Char) : Bool := 0x300 ≤ c.toNat ∧ c.toNat ≤ 0x36F

/-- The zero-width joiner U+200D. -/
def isZWJ (c : Char) : Bool := c.toNat = 0x200D

/-- Class Extended_Pictographic (restricted table: boy, girl, man, woman). -/
def isExtPict (c : Char) : Bool := 0x1F466 ≤ c.toNat ∧ c.toNat ≤ 0x1F469

/-- `c` continues the current cluster: it is Extend or ZWJ (GB9), or the
scan is right after a ZWJ closing a pictographic sequence and `c` is
pictographic (GB11). -/
def extendsCluster (pictZWJ : Bool) (c : Char) : Bool :=
  isExtendChar c ∨ isZWJ c ∨ (pictZWJ ∧ isExtPict c)

/-- The cluster scan: `cur` is the current cluster (reversed), `pictBase`
records whether the scan so far ends in `ExtPict Extend*`, and `pictZWJ`
whether the last char was a ZWJ directly after such a sequence. -/
def clustersAux : List Char → List Char → Bool → Bool → List (List Char)
  | [], cur, _, _ => [cur.reverse]
  | c :: rest, cur, pictBase, pictZWJ =>
    let pictBase' := if isExtPict c then true
      else if isExtendChar c then pictBase else false
    let pictZWJ' := if isZWJ c then pictBase else false
    if extendsCluster pictZWJ c then
      clustersAux rest (c :: cur) pictBase' pictZWJ'
    else
      cur.reverse :: clustersAux rest [c] pictBase' pictZWJ'

/-- `UnicodeSegmentation::graphemes(true)`: the extended grapheme clusters
of a string, under the restricted class tables above. -/
def graphemeClusters (l : List Char) : List (List Char) :=
  match l with
  | [] => []
  | c :: rest => clustersAux rest [c] (isExtPict c) false

/-- `graphemes(true).count()` -/
def graphemeCount (l : List Char) : Nat := (graphemeClusters l).length

structure Cell where
  chars : List Char
deriving DecidableEq, Repr

namespace Cell

/-- The `Default` empty cell. -/
def emptyCell : Cell := ⟨[]⟩

/-- `Cell::is_empty` -/
def is_empty (c : Cell) : Bool := c.chars = []

/-- `Cell::new`: fails when the content is more than 3 graphemes long. -/
def new (chars : List Char) : Option Cell :=
  if graphemeCount chars > 3 then none else some ⟨chars⟩

/-- `Cell::new_trim`: keeps the first 3 graphemes. -/
def new_trim (chars : List Char) : Cell :=
  ⟨((graphemeClusters chars).take 3).flatten⟩

/-- `byte_index_from_char_index`: at character granularity the byte index of
char `i` is `i` itself, clamped to the length (the source returns `s.len()`
when the index is past the end). -/
def byte_index_from_char_index (s : List Char) (char_index : Nat) : Nat :=
  min char_index s.length

/-- `Cell::insert_at`: inserts at the char index, commits only when the
result passes `Cell::new`, and reports the number of chars inserted.
Returns the (possibly unchanged) cell together with `some count` on success
and `none` on failure. -/
def insert_at (c : Cell) (string : List Char) (char_index : Nat) :
    Cell × Option Nat :=
  let byte_index := byte_index_from_char_index c.chars char_index
  let inserted := c.chars.take byte_index ++ string ++ c.chars.drop byte_index
  match new inserted with
  | some c' => (c', some string.length)
  | none => (c, none)

/-- `Cell::delete_char_range`: the source asserts `start ≤ end` (a panic,
modelled as `none`), then drains the clamped range and reports how many
chars were removed. -/
def delete_char_range (c : Cell) (start stop : Nat) :
    Option (Cell × Nat) :=
  if start ≤ stop then
    let byte_start := byte_index_from_char_index c.chars start
    let byte_stop := byte_index_from_char_index c.chars stop
    some (⟨c.chars.take byte_start ++ c.chars.drop byte_stop⟩,
      byte_stop - byte_start)
  else none

/-- `Cell::content` (the content as chars). -/
def content (c : Cell) : List Char := c.chars

end Cell

/-! ## Grid (`src/frame/grid.rs`)

The `HashMap<Position, Cell>` is modelled as an association list; `set`
removes every binding of the key before (possibly) inserting, which is the
observable behaviour of hash-map `remove`/`insert` (a hash map holds at
most one binding per key). -/

abbrev Grid : Type := List (Position × Cell)

namespace Grid

def empty : Grid := []

/-- `Grid::get`: absent keys read as the default empty cell. -/
def get (g : Grid) (position : Position) : Cell :=
  match g.find? fun e => e.1 = position with
  | some e => e.2
  | none => Cell.emptyCell

/-- `Grid::set`: an empty cell removes the key, any other overwrites it. -/
def set (g : Grid) (position : Position) (cell : Cell) : Grid :=
  if cell.is_empty then
    g.filter fun e => ¬ e.1 = position
  else
    (position, cell) :: g.filter fun e => ¬ e.1 = position

end Grid

/-! ## Literal, Address, Pointer, Operand (`src/lang/operand.rs`) -/

/-- `Literal { value: Cell }` -/
structure Literal where
  value : Cell
deriving DecidableEq, Repr

/-- `Address { position }` -/
structure Address where
  position : Position
deriving DecidableEq, Repr

/-- `Pointer { position }` -/
structure Pointer where
  position : Position
deriving DecidableEq, Repr

/-- `u32::from_str` digit accumulation on the chars after the optional
sign: all chars must be ASCII digits and at least one must be present. -/
def parseDigitsAux : List Char → Nat → Option Nat
  | [], acc => some acc
  | c :: rest, acc =>
    if '0' ≤ c ∧ c ≤ '9' then parseDigitsAux rest (acc * 10 + (c.toNat - 48))
    else none

/-- `str::parse::<u32>`: an optional leading `+`, then one or more decimal
digits; fails on anything else or on a value past `u32::MAX`. -/
def parseU32 (chars : List Char) : Option Nat :=
  let body := match chars with
    | '+' :: rest => rest
    | l => l
  match body with
  | [] => none
  | _ =>
    match parseDigitsAux body 0 with
    | some v => if v < 2 ^ 32 then some v else none
    | none => none

namespace Literal

/-- `Literal::new` / `Literal::from_cell` -/
def from_cell (cell : Cell) : Literal := ⟨cell⟩

/-- `Literal::from_bool` -/
def from_bool (value : Bool) : Literal :=
  ⟨Cell.new_trim (if value then ['1'] else ['0'])⟩

/-- `Literal::from_number`: formats the number in decimal and trims the
result to 3 graphemes through `Cell::new_trim`. -/
def from_number (value : Nat) : Literal :=
  ⟨Cell.new_trim (Nat.toDigits 10 value)⟩

/-- `Literal::as_cell` -/
def as_cell (l : Literal) : Cell := l.value

/-- `Literal::as_bool`: only `"0"` and `"1"` parse. -/
def as_bool (l : Literal) : Option Bool :=
  if l.value.content = ['0'] then some false
  else if l.value.content = ['1'] then some true
  else none

/-- `Literal::as_bool_with_default`: anything other than `"0"` is `true`. -/
def as_bool_with_default (l : Literal) : Bool :=
  ¬ l.value.content = ['0']

/-- `Literal::as_numeric` -/
def as_numeric (l : Literal) : Option Nat :=
  parseU32 l.value.content

/-- `Literal::as_numeric_with_default` -/
def as_numeric_with_default (l : Literal) : Nat :=
  (parseU32 l.value.content).getD 0

end Literal

namespace Address

/-- `Address::from_position` -/
def from_position (position : Position) : Address := ⟨position⟩

/-- `Address::from_cell`: strips the `@` then parses the two axis chars. -/
def from_cell (cell : Cell) : Option Address :=
  match cell.chars with
  | '@' :: rest => (Position.tryFromChars rest).map fun p => ⟨p⟩
  | _ => none

/-- `Address::as_cell`: the `@XY` cell (the source `expect` is unreachable
for axes respecting the range invariant). -/
def as_cell (a : Address) : Cell :=
  ⟨['@', Char.ofNat a.position.x.as_textual, Char.ofNat a.position.y.as_textual]⟩

/-- `Address::as_literal` -/
def as_literal (a : Address) : Literal := ⟨a.as_cell⟩

/-- `Address::fetch_literal`: reads the referenced cell directly. -/
def fetch_literal (a : Address) (grid : Grid) : Literal :=
  ⟨grid.get a.position⟩

end Address

namespace Pointer

def MAX_RECURSION_DEPTH : Nat := 3

/-- `Pointer::from_position` -/
def from_position (position : Position) : Pointer := ⟨position⟩

/-- `Pointer::from_cell`: strips the `&` then parses the two axis chars. -/
def from_cell (cell : Cell) : Option Pointer :=
  match cell.chars with
  | '&' :: rest => (Position.tryFromChars rest).map fun p => ⟨p⟩
  | _ => none

/-- `Pointer::as_cell` -/
def as_cell (p : Pointer) : Cell :=
  ⟨['&', Char.ofNat p.position.x.as_textual, Char.ofNat p.position.y.as_textual]⟩

/-- `Pointer::as_literal` -/
def as_literal (p : Pointer) : Literal := ⟨p.as_cell⟩

/-- The inner `get` of `Pointer::resolve_recursively`: fetch the pointed
cell; when it is itself a pointer either follow it (depth budget left) or
stop at it (the source also prints a diagnostic, no state effect). -/
def resolveGet (grid : Grid) (depth : Nat) (position : Position) : Cell :=
  let pointed_cell := grid.get position
  match from_cell pointed_cell with
  | some pointer =>
    if h : depth + 1 ≥ MAX_RECURSION_DEPTH then pointed_cell
    else resolveGet grid (depth + 1) pointer.position
  | none => pointed_cell
termination_by MAX_RECURSION_DEPTH - depth
decreasing_by
  simp only [MAX_RECURSION_DEPTH] at *
  omega

/-- `Pointer::resolve_recursively` -/
def resolve_recursively (p : Pointer) (grid : Grid) : Cell :=
  resolveGet grid 0 p.position

end Pointer

/-- `Operand`: tagged union of the three operand kinds. -/
inductive Operand where
  | Literal (literal : Literal)
  | Address (address : Address)
  | Pointer (pointer : Pointer)
deriving DecidableEq, Repr

namespace Operand

/-- `Operand::from_cell`: classification by prefix, defaulting to a
literal. -/
def from_cell (cell : Cell) : Operand :=
  match cell.chars.head? with
  | some '@' =>
    match Address.from_cell cell with
    | some address => .Address address
    | none => .Literal (Literal.from_cell cell)
  | some '&' =>
    match Pointer.from_cell cell with
    | some pointer => .Pointer pointer
    | none => .Literal (Literal.from_cell cell)
  | _ => .Literal (Literal.from_cell cell)

/-- `Operand::as_cell` -/
def as_cell (o : Operand) : Cell :=
  match o with
  | .Literal l => l.as_cell
  | .Address a => a.as_cell
  | .Pointer p => p.as_cell

end Operand

/-- `Pointer::resolve_to_operand` (named at top level so that `Pointer` and
`Operand` can share it). -/
def Pointer.resolve_to_operand (p : Pointer) (grid : Grid) : Operand :=
  Operand.from_cell (p.resolve_recursively grid)

/-- `Operand::resolve_to_literal` mutually recursive with
`Pointer::resolve_to_literal`; the source recursion is unbounded (a pointer
chain may keep yielding pointers at the depth cap), so the model takes fuel:
one unit per `Pointer::resolve_to_literal` call, `none` when it runs out. -/
def resolveToLiteralF (grid : Grid) : Nat → Operand → Option Literal
  | _, .Literal literal => some literal
  | _, .Address address => some (address.fetch_literal grid)
  | 0, .Pointer _ => none
  | fuel + 1, .Pointer pointer =>
    resolveToLiteralF grid fuel (pointer.resolve_to_operand grid)

/-- `Operand::resolve_to_address`, fuelled like `resolveToLiteralF`.
`some none` is the source's `Err` (a literal cannot resolve to an address),
`none` means the fuel ran out (the source diverges). -/
def resolveToAddressF (grid : Grid) : Nat → Operand → Option (Option Address)
  | _, .Literal _ => some none
  | _, .Address address => some (some address)
  | 0, .Pointer _ => none
  | fuel + 1, .Pointer pointer =>
    resolveToAddressF grid fuel (pointer.resolve_to_operand grid)

/-! ## Opcode (`src/lang/opcode.rs`) -/

/-- The closed opcode enum. -/
inductive Opcode where
  | Dbg | Hlt | Nop
  | Gou | Gor | God | Gol | Jmp
  | Igu | Igr | Igd | Igl | Ijp
  | Add | Sub | Mul | Div
  | Equ | Neq | Grt | Lst | Grq | Lsq
  | Set
  | Prt
deriving DecidableEq, Repr

namespace Opcode

/-- `Opcode::from_str` through strum with `serialize_all = "lowercase"`:
the cell text must equal the lowercased variant name exactly. -/
def from_cell (cell : Cell) : Option Opcode :=
  match String.mk cell.chars with
  | "dbg" => some .Dbg
  | "hlt" => some .Hlt
  | "nop" => some .Nop
  | "gou" => some .Gou
  | "gor" => some .Gor
  | "god" => some .God
  | "gol" => some .Gol
  | "jmp" => some .Jmp
  | "igu" => some .Igu
  | "igr" => some .Igr
  | "igd" => some .Igd
  | "igl" => some .Igl
  | "ijp" => some .Ijp
  | "add" => some .Add
  | "sub" => some .Sub
  | "mul" => some .Mul
  | "div" => some .Div
  | "equ" => some .Equ
  | "neq" => some .Neq
  | "grt" => some .Grt
  | "lst" => some .Lst
  | "grq" => some .Grq
  | "lsq" => some .Lsq
  | "set" => some .Set
  | "prt" => some .Prt
  | _ => none

/-- `Opcode::is_cell_valid` -/
def is_cell_valid (cell : Cell) : Bool :=
  (from_cell cell).isSome

end Opcode

/-! ## Word (`src/lang.rs`) -/

/-- `Word`: an opcode or an operand. -/
inductive Word where
  | Opcode (opcode : Opcode)
  | Operand (operand : Operand)
deriving DecidableEq, Repr

/-- `Word::from_cell` -/
def Word.from_cell (cell : Cell) : Word :=
  match Opcode.from_cell cell with
  | some opcode => .Opcode opcode
  | none => .Operand (Operand.from_cell cell)

/-! ## Head (`src/frame/head.rs`) -/

/-- `Head { position, direction }` -/
structure Head where
  position : Position
  direction : Direction
deriving DecidableEq, Repr

namespace Head

/-- The `Default` head: origin, facing `Right`. -/
def default : Head := ⟨Position.ORIGIN, .Right⟩

/-- `Head::move_to` -/
def move_to (h : Head) (position : Position) : Head :=
  { h with position := position }

/-- `Head::direct_to` -/
def direct_to (h : Head) (direction : Direction) : Head :=
  { h with direction := direction }

/-- The position computed by `Head::step`; `none` is the boundary error. -/
def stepPos (h : Head) : Option Position :=
  match h.direction with
  | .Up => h.position.checked_decrement_y 1
  | .Right => h.position.checked_increment_x 1
  | .Down => h.position.checked_increment_y 1
  | .Left => h.position.checked_decrement_x 1

/-- `Head::step` as used by `FrameAction::act`, which ignores the error
(`let _ = frame.head.step()`): on a boundary error the head is unchanged. -/
def stepOrStay (h : Head) : Head :=
  match h.stepPos with
  | some p => { h with position := p }
  | none => h

end Head

/-! ## Frame and FrameAction (`src/frame.rs`) -/

/-- `Frame`: grid, head, stack and console.  The stack `Vec` grows at its
tail; the model stores the stack with its top (the `Vec` tail) as the list
head.  The console is its `buffer` string. -/
structure Frame where
  grid : Grid
  head : Head
  stack : List Operand
  console : String
deriving Repr

/-- The `Default` frame. -/
def Frame.default : Frame := ⟨Grid.empty, Head.default, [], ""⟩

/-- `FrameAction`: the closed set of reversible primitive mutations. -/
inductive FrameAction where
  | GridSet (position : Position) (cell : Cell)
  | StackPush (operand : Operand)
  | StackPop
  | HeadMoveTo (position : Position)
  | HeadDirectTo (direction : Direction)
  | HeadStep
  | ConsolePrint (string : String)
deriving DecidableEq, Repr

/-! ## ReciprocalAction and Artifact (`src/history.rs`) -/

/-- `ReciprocalAction { redo, undo }` -/
structure ReciprocalAction where
  redo : Option FrameAction
  undo : Option FrameAction
deriving DecidableEq, Repr

/-- `Artifact`: the ordered list of reciprocal pairs.  `Artifact::EMPTY` is
`[]`, `Artifact::push` is list append. -/
abbrev Artifact : Type := List ReciprocalAction

/-- `Artifact::from_redo` -/
def Artifact.from_redo (redo : FrameAction) : Artifact := [⟨some redo, none⟩]

/-- `Artifact::from_redo_undo` -/
def Artifact.from_redo_undo (redo undo : FrameAction) : Artifact :=
  [⟨some redo, some undo⟩]

/-- `FrameAction::act`: performs the mutation and returns the artifact
holding the action and its inverse. -/
def FrameAction.act (action : FrameAction) (frame : Frame) : Frame × Artifact :=
  match action with
  | .GridSet position cell =>
    let previous_cell := frame.grid.get position
    ({ frame with grid := frame.grid.set position cell },
      Artifact.from_redo_undo (.GridSet position cell)
        (.GridSet position previous_cell))
  | .StackPush operand =>
    ({ frame with stack := operand :: frame.stack },
      Artifact.from_redo_undo (.StackPush operand) .StackPop)
  | .StackPop =>
    match frame.stack with
    | popped :: rest =>
      ({ frame with stack := rest },
        Artifact.from_redo_undo .StackPop (.StackPush popped))
    | [] => (frame, Artifact.from_redo .StackPop)
  | .HeadMoveTo position =>
    let old_position := frame.head.position
    ({ frame with head := frame.head.move_to position },
      Artifact.from_redo_undo (.HeadMoveTo position) (.HeadMoveTo old_position))
  | .HeadDirectTo direction =>
    let old_direction := frame.head.direction
    ({ frame with head := frame.head.direct_to direction },
      Artifact.from_redo_undo (.HeadDirectTo direction)
        (.HeadDirectTo old_direction))
  | .HeadStep =>
    let old_position := frame.head.position
    ({ frame with head := frame.head.stepOrStay },
      Artifact.from_redo_undo .HeadStep (.HeadMoveTo old_position))
  | .ConsolePrint string =>
    ({ frame with console := frame.console ++ string },
      Artifact.from_redo (.ConsolePrint string))

/-! ## Opcode evaluation (`src/lang/opcode.rs`)

The pop helpers return the popped value, the frame after the pop and the
pop's artifact.  Resolution may diverge in the source (pointer cycles), so
helpers that resolve take the fuel and return `none` when it runs out. -/

/-- `pop_operand` -/
def pop_operand (frame : Frame) : Option Operand × Frame × Artifact :=
  match frame.stack.head? with
  | some popped =>
    let r := FrameAction.act .StackPop frame
    (some popped, r.1, r.2)
  | none => (none, frame, [])

/-- `pop_literal` -/
def pop_literalF (fuel : Nat) (frame : Frame) :
    Option (Option Literal × Frame × Artifact) :=
  match pop_operand frame with
  | (some operand, frame', artifact) =>
    (resolveToLiteralF frame'.grid fuel operand).map
      fun l => (some l, frame', artifact)
  | (none, frame', artifact) => some (none, frame', artifact)

/-- `pop_address` -/
def pop_addressF (fuel : Nat) (frame : Frame) :
    Option (Option Address × Frame × Artifact) :=
  match pop_operand frame with
  | (some operand, frame', artifact) =>
    (resolveToAddressF frame'.grid fuel operand).map
      fun a => (a, frame', artifact)
  | (none, frame', artifact) => some (none, frame', artifact)

/-- `pop_as_numeric_with_default`: absent or unresolvable-to-number
operands default to `0`. -/
def pop_as_numeric_with_defaultF (fuel : Nat) (frame : Frame) :
    Option (Nat × Frame × Artifact) :=
  match pop_operand frame with
  | (some operand, frame', artifact) =>
    (resolveToLiteralF frame'.grid fuel operand).map
      fun l => (l.as_numeric_with_default, frame', artifact)
  | (none, frame', artifact) => some (0, frame', artifact)

/-- `pop_as_bool` -/
def pop_as_boolF (fuel : Nat) (frame : Frame) :
    Option (Option Bool × Frame × Artifact) :=
  match pop_operand frame with
  | (some operand, frame', artifact) =>
    (resolveToLiteralF frame'.grid fuel operand).map
      fun l => (l.as_bool, frame', artifact)
  | (none, frame', artifact) => some (none, frame', artifact)

/-- `pop_as_bool_with_default`: an absent operand defaults to `true`. -/
def pop_as_bool_with_defaultF (fuel : Nat) (frame : Frame) :
    Option (Bool × Frame × Artifact) :=
  match pop_operand frame with
  | (some operand, frame', artifact) =>
    (resolveToLiteralF frame'.grid fuel operand).map
      fun l => (l.as_bool_with_default, frame', artifact)
  | (none, frame', artifact) => some (true, frame', artifact)

/-- The direction of the inner match of the `Gou | Gor | God | Gol` arm of
`Opcode::evaluate`.  The source maps `Gor` to `Direction::Left` (like
`Gol`); the `_ => unreachable!()` arm is modelled as `Up`. -/
def Opcode.goDirection : Opcode → Direction
  | .Gou => .Up
  | .Gor => .Left
  | .God => .Down
  | .Gol => .Left
  | _ => .Up

/-- The direction of the inner match of the `Igu | Igr | Igd | Igl` arm. -/
def Opcode.igDirection : Opcode → Direction
  | .Igu => .Up
  | .Igr => .Right
  | .Igd => .Down
  | .Igl => .Left
  | _ => .Up

/-- The `u32` arithmetic of the `Add | Sub | Mul | Div` arm:
`checked_add/mul` give `0` on overflow, `saturating_sub` saturates at `0`,
`checked_div` gives `0` on division by zero. -/
def Opcode.arith (op : Opcode) (lhs rhs : Nat) : Nat :=
  match op with
  | .Add => if lhs + rhs < 2 ^ 32 then lhs + rhs else 0
  | .Sub => lhs - rhs
  | .Mul => if lhs * rhs < 2 ^ 32 then lhs * rhs else 0
  | .Div => match rhs with
    | 0 => 0
    | _ => lhs / rhs
  | _ => 0

/-- The comparison of the `Grt | Lst | Grq | Lsq` arm. -/
def Opcode.cmp (op : Opcode) (lhs rhs : Nat) : Bool :=
  match op with
  | .Grt => lhs > rhs
  | .Lst => lhs < rhs
  | .Grq => lhs ≥ rhs
  | .Lsq => lhs ≤ rhs
  | _ => false

/-- The `match self` body of `Opcode::evaluate`, before the trailing
implicit `HeadStep`.  `none` models a panic (`Hlt` is `unimplemented!()`)
or resolution fuel running out (source divergence). -/
def Opcode.evalCore (fuel : Nat) (op : Opcode) (frame : Frame) :
    Option (Frame × Artifact) :=
  match op with
  | .Nop => some (frame, [])
  | .Hlt => none
  | .Dbg => some (frame, [])
  | .Gou | .Gor | .God | .Gol =>
    some (FrameAction.act (.HeadDirectTo op.goDirection) frame)
  | .Jmp =>
    match frame.stack.head? with
    | some operand =>
      match resolveToAddressF frame.grid fuel operand with
      | none => none
      | some address_res =>
        let r := FrameAction.act .StackPop frame
        match address_res with
        | some address =>
          let r2 := FrameAction.act (.HeadMoveTo address.position) r.1
          some (r2.1, r.2 ++ r2.2)
        | none => some (r.1, r.2)
    | none =>
      let r := FrameAction.act .StackPop frame
      some (r.1, r.2)
  | .Igu | .Igr | .Igd | .Igl =>
    match pop_as_boolF fuel frame with
    | none => none
    | some (value_res, frame1, artifact) =>
      match value_res with
      | some true =>
        let r := FrameAction.act (.HeadDirectTo op.igDirection) frame1
        some (r.1, artifact ++ r.2)
      | _ => some (frame1, artifact)
  | .Ijp =>
    match pop_addressF fuel frame with
    | none => none
    | some (address_res, frame1, artifact) =>
      match pop_as_bool_with_defaultF fuel frame1 with
      | none => none
      | some (operand, frame2, ope_artifact) =>
        match address_res, operand with
        | some address, true =>
          let r := FrameAction.act (.HeadMoveTo address.position) frame2
          some (r.1, (artifact ++ ope_artifact) ++ r.2)
        | _, _ => some (frame2, artifact ++ ope_artifact)
  | .Equ | .Neq =>
    match pop_literalF fuel frame with
    | none => none
    | some (rhs_res, frame1, artifact) =>
      match pop_literalF fuel frame1 with
      | none => none
      | some (lhs_res, frame2, lhs_artifact) =>
        let result := match rhs_res, lhs_res with
          | some rhs, some lhs =>
            match op with
            | .Equ => lhs = rhs
            | _ => ¬ lhs = rhs
          | _, _ => false
        let r := FrameAction.act
          (.StackPush (.Literal (Literal.from_bool result))) frame2
        some (r.1, (artifact ++ lhs_artifact) ++ r.2)
  | .Grt | .Lst | .Grq | .Lsq =>
    match pop_as_numeric_with_defaultF fuel frame with
    | none => none
    | some (rhs, frame1, artifact) =>
      match pop_as_numeric_with_defaultF fuel frame1 with
      | none => none
      | some (lhs, frame2, lhs_artifact) =>
        let r := FrameAction.act
          (.StackPush (.Literal (Literal.from_bool (op.cmp lhs rhs)))) frame2
        some (r.1, (artifact ++ lhs_artifact) ++ r.2)
  | .Add | .Sub | .Mul | .Div =>
    match pop_as_numeric_with_defaultF fuel frame with
    | none => none
    | some (rhs, frame1, artifact) =>
      match pop_as_numeric_with_defaultF fuel frame1 with
      | none => none
      | some (lhs, frame2, lhs_artifact) =>
        let r := FrameAction.act
          (.StackPush (.Literal (Literal.from_number (op.arith lhs rhs)))) frame2
        some (r.1, (artifact ++ lhs_artifact) ++ r.2)
  | .Set =>
    match pop_addressF fuel frame with
    | none => none
    | some (address_res, frame1, artifact) =>
      match pop_literalF fuel frame1 with
      | none => none
      | some (literal_res, frame2, lit_artifact) =>
        match address_res, literal_res with
        | some address, some literal =>
          let r := FrameAction.act
            (.GridSet address.position literal.as_cell) frame2
          some (r.1, (artifact ++ lit_artifact) ++ r.2)
        | _, _ => some (frame2, artifact ++ lit_artifact)
  | .Prt =>
    match pop_operand frame with
    | (some operand, frame1, artifact) =>
      let r := FrameAction.act
        (.ConsolePrint (String.mk operand.as_cell.content)) frame1
      some (r.1, artifact ++ r.2)
    | (none, frame1, artifact) => some (frame1, artifact)

/-- The `matches!(self, Jmp | Hlt | Ijp)` check guarding the implicit
trailing `HeadStep`. -/
def Opcode.skipsTrailingStep : Opcode → Bool
  | .Jmp | .Hlt | .Ijp => true
  | _ => false

/-- `Opcode::evaluate`: the opcode body followed, except for
`Jmp`/`Hlt`/`Ijp`, by one implicit `HeadStep`. -/
def Opcode.evaluateF (fuel : Nat) (op : Opcode) (frame : Frame) :
    Option (Frame × Artifact) :=
  match op.evalCore fuel frame with
  | none => none
  | some (frame1, artifact) =>
    if op.skipsTrailingStep then some (frame1, artifact)
    else
      let r := FrameAction.act .HeadStep frame1
      some (r.1, artifact ++ r.2)

/-! ## Frame::step (`src/frame.rs`) -/

/-- `Frame::step`: empty cell under the head means one `HeadStep`; an
opcode is evaluated; an operand is pushed then one `HeadStep`. -/
def Frame.stepF (fuel : Nat) (frame : Frame) : Option (Frame × Artifact) :=
  let current_cell := frame.grid.get frame.head.position
  if current_cell.is_empty then
    some (FrameAction.act .HeadStep frame)
  else
    match Word.from_cell current_cell with
    | .Opcode opcode => opcode.evaluateF fuel frame
    | .Operand operand =>
      let r := FrameAction.act (.StackPush operand) frame
      let r2 := FrameAction.act .HeadStep r.1
      some (r2.1, r.2 ++ r2.2)

/-! ## History (`src/history.rs`) -/

/-- `Artifact::redo`: replays the redo actions in forward order, dropping
the artifacts the replay itself produces. -/
def redoApply (a : Artifact) (frame : Frame) : Frame :=
  a.foldl (fun fr ra =>
    match ra.redo with
    | some action => (action.act fr).1
    | none => fr) frame

/-- `Artifact::undo`: replays the undo actions in reverse order. -/
def undoApply (a : Artifact) (frame : Frame) : Frame :=
  a.foldr (fun ra fr =>
    match ra.undo with
    | some action => (action.act fr).1
    | none => fr) frame

/-- `History { artifacts, cursor }` -/
structure History where
  artifacts : List Artifact
  cursor : Nat

/-- The `Default` history. -/
def History.empty : History := ⟨[], 0⟩

/-- `History::append`: empty artifacts are dropped; otherwise the redo
suffix (everything at or after the cursor) is discarded, the artifact is
pushed and the cursor advances past it. -/
def History.append (h : History) (artifact : Artifact) : History :=
  if artifact = ([] : Artifact) then h
  else ⟨h.artifacts.take h.cursor ++ [artifact], h.cursor + 1⟩

/-- `History::merge_with_last`: empty artifacts are dropped; otherwise the
artifact is appended onto the last history entry, or plainly appended when
the history is empty. -/
def History.merge_with_last (h : History) (artifact : Artifact) : History :=
  if artifact = ([] : Artifact) then h
  else
    match h.artifacts.getLast? with
    | some last_artifact =>
      ⟨h.artifacts.dropLast ++ [last_artifact ++ artifact], h.cursor⟩
    | none => h.append artifact

/-- `History::undo`: undoes the artifact before the cursor against the
frame and steps the cursor back, returning the artifact; a no-op returning
`EMPTY` at the start of history. -/
def History.undo (h : History) (frame : Frame) : History × Frame × Artifact :=
  match h.cursor with
  | 0 => (h, frame, [])
  | last_artifact + 1 =>
    match h.artifacts[last_artifact]? with
    | some artifact => (⟨h.artifacts, last_artifact⟩, undoApply artifact frame, artifact)
    | none => (h, frame, [])

/-- `History::redo`: redoes the artifact at the cursor and advances it; a
no-op returning `EMPTY` at the end of history. -/
def History.redo (h : History) (frame : Frame) : History × Frame × Artifact :=
  match h.artifacts[h.cursor]? with
  | some artifact => (⟨h.artifacts, h.cursor + 1⟩, redoApply artifact frame, artifact)
  | none => (h, frame, [])

/-! ## Auxiliary predicates used by the claims -/

/-- A head on the grid boundary facing outward: one `HeadStep` would leave
`[0,63] × [0,63]`. -/
def Head.facesOutward (h : Head) : Prop :=
  match h.direction with
  | .Up => h.position.y.val = 0
  | .Right => h.position.x.val = 63
  | .Down => h.position.y.val = 63
  | .Left => h.position.x.val = 0

/-! ## C8 : the PositionAxis numeric/textual codec -/

/-- **C8.** For every `n ∈ [0,63]`, `textual_to_numeric ∘ numeric_to_textual`
returns `n`; for every char in `[A-Za-z0-9+/]` (as a scalar value),
`numeric_to_textual ∘ textual_to_numeric` returns the char; and both
conversions fail exactly outside those domains. -/
theorem C8_axis_codec_roundtrip :
    (∀ n : Nat, n ≤ 63 →
      (PositionAxis.numeric_to_textual n).bind PositionAxis.textual_to_numeric
        = some n) ∧
    (∀ c : Nat, PositionAxis.is_valid_textual c →
      (PositionAxis.textual_to_numeric c).bind PositionAxis.numeric_to_textual
        = some c) ∧
    (∀ n : Nat, 63 < n → PositionAxis.numeric_to_textual n = none) ∧
    (∀ c : Nat, ¬ PositionAxis.is_valid_textual c →
      PositionAxis.textual_to_numeric c = none) := by
  refine ⟨?_, ?_, ?_, ?_⟩
  · intro n hn
    interval_cases n <;> rfl
  · intro c hc
    have hb : c ≤ 122 := by
      simp only [PositionAxis.is_valid_textual, decide_eq_true_eq] at hc
      omega
    interval_cases c <;> revert hc <;> decide
  · intro n hn
    simp only [PositionAxis.numeric_to_textual, PositionAxis.is_valid_numeric,
      PositionAxis.MIN_NUMERIC, PositionAxis.MAX_NUMERIC]
    split_ifs with h1 <;> simp_all <;> omega
  · intro c hc
    simp only [PositionAxis.is_valid_textual, decide_eq_true_eq] at hc
    push_neg at hc
    simp only [PositionAxis.textual_to_numeric]
    split_ifs with h1 h2 h3 h4 h5 <;> first
      | rfl
      | (exfalso; omega)

/-- Witness for C8 at concrete inputs. -/
theorem C8_axis_codec_roundtrip_witness :
    (PositionAxis.numeric_to_textual 51).bind PositionAxis.textual_to_numeric
      = some 51 ∧
    (PositionAxis.textual_to_numeric 43).bind PositionAxis.numeric_to_textual
      = some 43 ∧
    PositionAxis.numeric_to_textual 64 = none ∧
    PositionAxis.textual_to_numeric 45 = none :=
  ⟨C8_axis_codec_roundtrip.1 51 (by decide),
   C8_axis_codec_roundtrip.2.1 43 (by decide),
   C8_axis_codec_roundtrip.2.2.1 64 (by decide),
   C8_axis_codec_roundtrip.2.2.2 45 (by decide)⟩

/-! ## C9 : out-of-bounds HeadStep is a no-op, and so is its undo -/

/-- **C9.** When the head sits on the grid boundary facing outward,
`FrameAction::HeadStep` leaves the frame unchanged and returns the artifact
whose undo (`HeadMoveTo` the current position) also leaves the frame
unchanged. -/
theorem C9_boundary_headstep_noop (fr : Frame) (hout : fr.head.facesOutward) :
    FrameAction.act .HeadStep fr
      = (fr, Artifact.from_redo_undo .HeadStep (.HeadMoveTo fr.head.position)) ∧
    undoApply (FrameAction.act .HeadStep fr).2 fr = fr := by
  have hstep : fr.head.stepPos = none := by
    unfold Head.facesOutward at hout
    unfold Head.stepPos
    cases hdir : fr.head.direction <;> rw [hdir] at hout <;>
      simp only [Position.checked_decrement_y, Position.checked_increment_x,
        Position.checked_increment_y, Position.checked_decrement_x,
        PositionAxis.checked_decrement, PositionAxis.checked_increment,
        PositionAxis.from_numeric, PositionAxis.is_valid_numeric,
        PositionAxis.MIN_NUMERIC, PositionAxis.MAX_NUMERIC, hout] <;>
      simp
  have hstay : fr.head.stepOrStay = fr.head := by
    unfold Head.stepOrStay
    rw [hstep]
  constructor
  · show ({ fr with head := fr.head.stepOrStay }, _) = _
    rw [hstay]
  · show undoApply (FrameAction.act .HeadStep fr).2 fr = fr
    have : (FrameAction.act .HeadStep fr).2
        = Artifact.from_redo_undo .HeadStep (.HeadMoveTo fr.head.position) := rfl
    rw [this]
    show (FrameAction.act (.HeadMoveTo fr.head.position) fr).1 = fr
    show { fr with head := fr.head.move_to fr.head.position } = fr
    rfl

/-- Witness for C9: head at the origin facing `Up`. -/
theorem C9_boundary_headstep_noop_witness :
    Head.facesOutward ⟨Position.ORIGIN, .Up⟩ ∧
    (FrameAction.act .HeadStep ⟨Grid.empty, ⟨Position.ORIGIN, .Up⟩, [], ""⟩
      = (⟨Grid.empty, ⟨Position.ORIGIN, .Up⟩, [], ""⟩,
         Artifact.from_redo_undo .HeadStep (.HeadMoveTo Position.ORIGIN)) ∧
     undoApply (FrameAction.act .HeadStep
         ⟨Grid.empty, ⟨Position.ORIGIN, .Up⟩, [], ""⟩).2
         ⟨Grid.empty, ⟨Position.ORIGIN, .Up⟩, [], ""⟩
       = ⟨Grid.empty, ⟨Position.ORIGIN, .Up⟩, [], ""⟩) :=
  ⟨by constructor,
   C9_boundary_headstep_noop ⟨Grid.empty, ⟨Position.ORIGIN, .Up⟩, [], ""⟩
     (by constructor)⟩

/-! ## C6 : append discards the redo suffix -/

/-- **C6.** Appending a non-empty artifact discards everything at or after
the cursor, pushes the artifact and advances the cursor past it, so a redo
right after an append (in particular after one or more undos) is a no-op;
appending an empty artifact changes nothing. -/
theorem C6_append_discards_redo :
    (∀ (h : History) (a : Artifact), ¬ a = [] →
      History.append h a
        = ⟨h.artifacts.take h.cursor ++ [a], h.cursor + 1⟩) ∧
    (∀ (h : History) (a : Artifact) (fr : Frame), ¬ a = [] →
      h.cursor ≤ h.artifacts.length →
      History.redo (History.append h a) fr = (History.append h a, fr, [])) ∧
    (∀ (h : History) (fr : Frame),
      h.cursor ≤ h.artifacts.length →
      (History.undo h fr).1.cursor ≤ (History.undo h fr).1.artifacts.length) ∧
    (∀ (h : History) (a : Artifact), a = [] → History.append h a = h) := by
  refine ⟨?_, ?_, ?_, ?_⟩
  · intro h a ha
    unfold History.append
    rw [if_neg ha]
  · intro h a fr ha hinv
    have happ : History.append h a
        = ⟨h.artifacts.take h.cursor ++ [a], h.cursor + 1⟩ := by
      unfold History.append
      rw [if_neg ha]
    have hlen : (h.artifacts.take h.cursor ++ [a]).length = h.cursor + 1 := by
      rw [List.length_append, List.length_take]
      simp [Nat.min_eq_left hinv]
    rw [happ]
    unfold History.redo
    have : (h.artifacts.take h.cursor ++ [a])[h.cursor + 1]? = none := by
      rw [List.getElem?_eq_none]
      omega
    simp only [this]
  · intro h fr hinv
    unfold History.undo
    split
    · exact hinv
    · rename_i j hc
      split
      · rename_i a hget
        have hj : j < h.artifacts.length := by
          by_contra hcon
          push_neg at hcon
          rw [List.getElem?_eq_none hcon] at hget
          simp at hget
        exact Nat.le_of_lt hj
      · exact hinv
  · intro h a ha
    unfold History.append
    rw [if_pos ha]

/-- Witness for C6: a one-entry history after one undo, then an append. -/
theorem C6_append_discards_redo_witness :
    History.append (⟨[[⟨some .HeadStep, none⟩]], 0⟩ : History)
        [⟨some .StackPop, none⟩]
      = ⟨[[⟨some .StackPop, none⟩]], 1⟩ ∧
    History.redo
        (History.append (⟨[[⟨some .HeadStep, none⟩]], 0⟩ : History)
          [⟨some .StackPop, none⟩]) Frame.default
      = (History.append (⟨[[⟨some .HeadStep, none⟩]], 0⟩ : History)
          [⟨some .StackPop, none⟩], Frame.default, []) :=
  ⟨C6_append_discards_redo.1 ⟨[[⟨some .HeadStep, none⟩]], 0⟩
      [⟨some .StackPop, none⟩] (by simp),
   C6_append_discards_redo.2.1 ⟨[[⟨some .HeadStep, none⟩]], 0⟩
      [⟨some .StackPop, none⟩] Frame.default (by simp) (by simp)⟩

/-! ## C7 : the 3-grapheme Cell invariant, broken by delete_char_range -/

/-- The woman–ZWJ–girl family emoji: one extended grapheme cluster made of
three chars. -/
def womanZwjGirl : List Char :=
  [Char.ofNat 0x1F469, Char.ofNat 0x200D, Char.ofNat 0x1F467]

/-- Three such clusters: a 9-char, 3-grapheme cell content accepted by
`Cell::new`. -/
def pictTriple : List Char := womanZwjGirl ++ womanZwjGirl ++ womanZwjGirl

/-- **C7 (divergence).** `Cell::new` accepts the 9-char, 3-cluster content
`pictTriple`; draining the char range `1..2` removes the first ZWJ only,
with no grapheme recheck, splitting the first cluster — the resulting cell
holds 4 graphemes, violating the claimed ≤ 3 invariant.  The insert path
is sound: `insert_at` either leaves the cell unchanged (failure) or commits
a revalidated cell, reporting the number of chars inserted. -/
theorem C7_cell_delete_splits_cluster :
    Cell.new pictTriple = some ⟨pictTriple⟩ ∧
    graphemeCount pictTriple = 3 ∧
    Cell.delete_char_range ⟨pictTriple⟩ 1 2
      = some (⟨pictTriple.take 1 ++ pictTriple.drop 2⟩, 1) ∧
    graphemeCount (pictTriple.take 1 ++ pictTriple.drop 2) = 4 ∧
    (∀ (c : Cell) (s : List Char) (i : Nat),
      (c.insert_at s i).1 = c ∨ (c.insert_at s i).2 = some s.length) := by
  refine ⟨by decide, by decide, by decide, by decide, ?_⟩
  intro c s i
  simp only [Cell.insert_at]
  split
  · exact Or.inr rfl
  · exact Or.inl rfl

/-! ## C10 : Equ/Neq on a short stack push the boolean literal "0" -/

/-- **C10.** With fewer than two operands on the stack, `Equ` and `Neq`
both push the boolean literal `"0"` (false) after popping whatever operands
were present. -/
theorem C10_equ_neq_underflow (fuel : Nat) (op : Opcode)
    (hop : op = .Equ ∨ op = .Neq) (fr fr' : Frame) (art : Artifact)
    (hlen : fr.stack.length < 2)
    (h : Opcode.evaluateF fuel op fr = some (fr', art)) :
    fr'.stack = [.Literal (Literal.from_bool false)] := by
  have hcases : fr.stack = [] ∨ ∃ x, fr.stack = [x] := by
    cases hs : fr.stack with
    | nil => exact Or.inl rfl
    | cons x rest =>
      cases hr : rest with
      | nil => exact Or.inr ⟨x, rfl⟩
      | cons y r2 =>
        rw [hs, hr] at hlen
        simp at hlen
        omega
  rcases hop with hop | hop <;> subst hop <;>
    rcases hcases with hstack | ⟨x, hstack⟩
  · simp only [Opcode.evaluateF, Opcode.evalCore, pop_literalF, pop_operand,
      hstack, List.head?, FrameAction.act, Opcode.skipsTrailingStep,
      Option.map_none', Option.map_some'] at h
    rw [if_neg (by simp : ¬ (false = true))] at h
    simp only [Option.some_inj, Prod.mk.injEq] at h
    rw [← h.1]
  · cases hres : resolveToLiteralF fr.grid fuel x with
    | none =>
      simp only [Opcode.evaluateF, Opcode.evalCore, pop_literalF, pop_operand,
        hstack, List.head?, FrameAction.act, hres, Option.map_none'] at h
      exact Option.noConfusion h
    | some l =>
      simp only [Opcode.evaluateF, Opcode.evalCore, pop_literalF, pop_operand,
        hstack, List.head?, FrameAction.act, hres, Option.map_none',
        Option.map_some', Opcode.skipsTrailingStep] at h
      rw [if_neg (by simp : ¬ (false = true))] at h
      simp only [Option.some_inj, Prod.mk.injEq] at h
      rw [← h.1]
  · simp only [Opcode.evaluateF, Opcode.evalCore, pop_literalF, pop_operand,
      hstack, List.head?, FrameAction.act, Opcode.skipsTrailingStep,
      Option.map_none', Option.map_some'] at h
    rw [if_neg (by simp : ¬ (false = true))] at h
    simp only [Option.some_inj, Prod.mk.injEq] at h
    rw [← h.1]
  · cases hres : resolveToLiteralF fr.grid fuel x with
    | none =>
      simp only [Opcode.evaluateF, Opcode.evalCore, pop_literalF, pop_operand,
        hstack, List.head?, FrameAction.act, hres, Option.map_none'] at h
      exact Option.noConfusion h
    | some l =>
      simp only [Opcode.evaluateF, Opcode.evalCore, pop_literalF, pop_operand,
        hstack, List.head?, FrameAction.act, hres, Option.map_none',
        Option.map_some', Opcode.skipsTrailingStep] at h
      rw [if_neg (by simp : ¬ (false = true))] at h
      simp only [Option.some_inj, Prod.mk.injEq] at h
      rw [← h.1]

/-- Witness for C10: `Neq` on the default (empty-stack) frame pushes `"0"`. -/
theorem C10_equ_neq_underflow_witness :
    (Frame.mk [] ⟨⟨⟨1⟩, ⟨0⟩⟩, .Right⟩
      [Operand.Literal ⟨⟨['0']⟩⟩] "").stack
      = [.Literal (Literal.from_bool false)] :=
  C10_equ_neq_underflow 1 .Neq (Or.inr rfl) Frame.default
    (Frame.mk [] ⟨⟨⟨1⟩, ⟨0⟩⟩, .Right⟩ [Operand.Literal ⟨⟨['0']⟩⟩] "")
    [⟨some (.StackPush (.Literal ⟨⟨['0']⟩⟩)), some .StackPop⟩,
     ⟨some .HeadStep, some (.HeadMoveTo ⟨⟨0⟩, ⟨0⟩⟩)⟩]
    (by decide) (by rfl)

/-! ## C4 : Gou/Gor/God/Gol set the head direction (Gor is wrong) -/

/-- **C4 (divergence).** `Gou`, `God`, `Gol` set the head direction to
`Up`, `Down`, `Left`; but `Gor` sets it to `Left` as well (the source maps
`Gor => Direction::Left`), not `Right` as the claim states. -/
theorem C4_gor_sets_left :
    (Opcode.evaluateF 1 .Gou Frame.default).map (fun r => r.1.head.direction)
      = some Direction.Up ∧
    (Opcode.evaluateF 1 .Gor Frame.default).map (fun r => r.1.head.direction)
      = some Direction.Left ∧
    (Opcode.evaluateF 1 .God Frame.default).map (fun r => r.1.head.direction)
      = some Direction.Down ∧
    (Opcode.evaluateF 1 .Gol Frame.default).map (fun r => r.1.head.direction)
      = some Direction.Left ∧
    ¬ (Direction.Left = Direction.Right) :=
  ⟨rfl, rfl, rfl, rfl, by decide⟩

/-! ## C3 : Add/Sub/Mul/Div semantics -/

/-- **C3 (counterexample).** `Add` on two literals `"999"` pushes the
literal `"199"`: `Literal::from_number` trims the decimal text of
`999 + 999 = 1998` to 3 graphemes, so the pushed literal is not the literal
of `lhs + rhs`. -/
theorem C3_add_truncates_counterexample :
    (Opcode.evaluateF 1 .Add
        ⟨[], Head.default,
          [.Literal ⟨⟨['9', '9', '9']⟩⟩, .Literal ⟨⟨['9', '9', '9']⟩⟩],
          ""⟩).map (fun r => r.1.stack)
      = some [.Literal ⟨⟨['1', '9', '9']⟩⟩] ∧
    Nat.toDigits 10 (999 + 999) = ['1', '9', '9', '8'] ∧
    ¬ ((Cell.mk ['1', '9', '9']) = Cell.mk ['1', '9', '9', '8']) :=
  ⟨rfl, rfl, by decide⟩

/-- **C3 (amended).** `Add`/`Sub`/`Mul`/`Div` pop two numeric operands
(rhs first, then lhs, defaulting to `0` when absent or unparsable) and push
`Literal::from_number(lhs op rhs)` — the decimal text trimmed to 3
graphemes — where `Sub` saturates at `0`, `Div` yields `0` on division by
zero, and `Add`/`Mul` yield `0` on `u32` overflow; then one implicit
`HeadStep` follows. -/
theorem C3_arith_semantics :
    (∀ (fuel : Nat) (op : Opcode),
      (op = .Add ∨ op = .Sub ∨ op = .Mul ∨ op = .Div) →
      ∀ (fr : Frame) (la lb : Literal) (rest : List Operand),
      fr.stack = .Literal la :: .Literal lb :: rest →
      ∃ art, Opcode.evaluateF fuel op fr = some
        ({ fr with
            stack := .Literal (Literal.from_number
              (op.arith lb.as_numeric_with_default
                la.as_numeric_with_default)) :: rest,
            head := fr.head.stepOrStay }, art)) ∧
    (∀ (fuel : Nat) (op : Opcode),
      (op = .Add ∨ op = .Sub ∨ op = .Mul ∨ op = .Div) →
      ∀ (fr : Frame) (la : Literal),
      fr.stack = [.Literal la] →
      ∃ art, Opcode.evaluateF fuel op fr = some
        ({ fr with
            stack := [.Literal (Literal.from_number
              (op.arith 0 la.as_numeric_with_default))],
            head := fr.head.stepOrStay }, art)) ∧
    (∀ (fuel : Nat) (op : Opcode),
      (op = .Add ∨ op = .Sub ∨ op = .Mul ∨ op = .Div) →
      ∀ (fr : Frame),
      fr.stack = [] →
      ∃ art, Opcode.evaluateF fuel op fr = some
        ({ fr with
            stack := [.Literal (Literal.from_number (op.arith 0 0))],
            head := fr.head.stepOrStay }, art)) := by
  refine ⟨?_, ?_, ?_⟩
  · intro fuel op hop fr la lb rest hstack
    rcases hop with hop | hop | hop | hop <;> subst hop <;>
      simp only [Opcode.evaluateF, Opcode.evalCore,
        pop_as_numeric_with_defaultF, pop_operand, hstack, List.head?,
        FrameAction.act, resolveToLiteralF, Option.map_some',
        Opcode.skipsTrailingStep] <;>
      rw [if_neg (by simp : ¬ (false = true))] <;>
      exact ⟨_, rfl⟩
  · intro fuel op hop fr la hstack
    rcases hop with hop | hop | hop | hop <;> subst hop <;>
      simp only [Opcode.evaluateF, Opcode.evalCore,
        pop_as_numeric_with_defaultF, pop_operand, hstack, List.head?,
        FrameAction.act, resolveToLiteralF, Option.map_some',
        Opcode.skipsTrailingStep] <;>
      rw [if_neg (by simp : ¬ (false = true))] <;>
      exact ⟨_, rfl⟩
  · intro fuel op hop fr hstack
    rcases hop with hop | hop | hop | hop <;> subst hop <;>
      simp only [Opcode.evaluateF, Opcode.evalCore,
        pop_as_numeric_with_defaultF, pop_operand, hstack, List.head?,
        FrameAction.act, resolveToLiteralF, Option.map_some',
        Opcode.skipsTrailingStep] <;>
      rw [if_neg (by simp : ¬ (false = true))] <;>
      exact ⟨_, rfl⟩

/-- Witness for C3: `Div` with stack `["0", "7"]` (rhs `"0"` popped first)
pushes `7 / 0 = 0` as `"0"`. -/
theorem C3_arith_semantics_witness :
    ∃ art, Opcode.evaluateF 1 .Div
      ⟨[], Head.default, [.Literal ⟨⟨['0']⟩⟩, .Literal ⟨⟨['7']⟩⟩], ""⟩
      = some (⟨[], ⟨⟨⟨1⟩, ⟨0⟩⟩, .Right⟩,
          [.Literal (Literal.from_number (Opcode.Div.arith 7 0))], ""⟩, art) := by
  have h := C3_arith_semantics.1 1 .Div (Or.inr (Or.inr (Or.inr rfl)))
    ⟨[], Head.default, [.Literal ⟨⟨['0']⟩⟩, .Literal ⟨⟨['7']⟩⟩], ""⟩
    ⟨⟨['0']⟩⟩ ⟨⟨['7']⟩⟩ [] rfl
  simpa using h

/-! ## C5 : Ijp semantics and its pop order -/

/-- The claim's reading of `Ijp` (for comparison with the source): pop the
*boolean first* (defaulting to `true` when unavailable), then the address;
when the boolean is true and the address resolves, move the head there; no
implicit trailing step.  Only the resulting frame matters here. -/
def ijpClaimOrder (fuel : Nat) (frame : Frame) : Option Frame :=
  match pop_as_bool_with_defaultF fuel frame with
  | none => none
  | some (b, frame1, _) =>
    match pop_addressF fuel frame1 with
    | none => none
    | some (address_res, frame2, _) =>
      match address_res, b with
      | some address, true =>
        some (FrameAction.act (.HeadMoveTo address.position) frame2).1
      | _, _ => some frame2

/-- **C5 (counterexample).** On the stack `[Address (3,4), Literal "1"]`
(top first) the source's `Ijp` pops the *address first* and jumps to
`(3,4)`, while the claim's bool-first order would fail to resolve the
address (it finds `"1"`) and leave the head at the origin. -/
theorem C5_ijp_pop_order_counterexample :
    (Opcode.evaluateF 1 .Ijp
        ⟨[], Head.default, [.Address ⟨⟨⟨3⟩, ⟨4⟩⟩⟩, .Literal ⟨⟨['1']⟩⟩],
          ""⟩).map (fun r => r.1.head.position)
      = some ⟨⟨3⟩, ⟨4⟩⟩ ∧
    (ijpClaimOrder 1
        ⟨[], Head.default, [.Address ⟨⟨⟨3⟩, ⟨4⟩⟩⟩, .Literal ⟨⟨['1']⟩⟩],
          ""⟩).map (fun fr => fr.head.position)
      = some Position.ORIGIN ∧
    ¬ ((⟨⟨3⟩, ⟨4⟩⟩ : Position) = Position.ORIGIN) :=
  ⟨rfl, rfl, by decide⟩

/-- **C5 (amended).** `Ijp` pops the *address first*, then the boolean
(which defaults to `true` when no operand is left); when the boolean is
true and the address resolved, the head moves to that address; the
direction is untouched and no implicit `HeadStep` follows. -/
theorem C5_ijp_semantics :
    (∀ (fuel : Nat) (fr : Frame) (oa ob : Operand) (rest : List Operand)
      (aRes : Option Address) (bl : Literal),
      fr.stack = oa :: ob :: rest →
      resolveToAddressF fr.grid fuel oa = some aRes →
      resolveToLiteralF fr.grid fuel ob = some bl →
      ∃ art, Opcode.evaluateF fuel .Ijp fr = some
        ({ fr with
            stack := rest,
            head := match aRes, bl.as_bool_with_default with
              | some address, true => fr.head.move_to address.position
              | _, _ => fr.head }, art)) ∧
    (∀ (fuel : Nat) (fr : Frame) (oa : Operand) (aRes : Option Address),
      fr.stack = [oa] →
      resolveToAddressF fr.grid fuel oa = some aRes →
      ∃ art, Opcode.evaluateF fuel .Ijp fr = some
        ({ fr with
            stack := [],
            head := match aRes with
              | some address => fr.head.move_to address.position
              | none => fr.head }, art)) ∧
    (∀ (fuel : Nat) (fr : Frame),
      fr.stack = [] →
      Opcode.evaluateF fuel .Ijp fr = some (fr, [])) := by
  refine ⟨?_, ?_, ?_⟩
  · intro fuel fr oa ob rest aRes bl hstack ha hb
    rcases aRes with _ | address <;> cases hbd : bl.as_bool_with_default <;>
      simp only [Opcode.evaluateF, Opcode.evalCore, pop_addressF,
        pop_as_bool_with_defaultF, pop_operand, hstack, List.head?,
        FrameAction.act, ha, hb, hbd, Option.map_some',
        Opcode.skipsTrailingStep] <;>
      exact ⟨_, rfl⟩
  · intro fuel fr oa aRes hstack ha
    rcases aRes with _ | address <;>
      simp only [Opcode.evaluateF, Opcode.evalCore, pop_addressF,
        pop_as_bool_with_defaultF, pop_operand, hstack, List.head?,
        FrameAction.act, ha, Option.map_some',
        Opcode.skipsTrailingStep] <;>
      exact ⟨_, rfl⟩
  · intro fuel fr hstack
    simp only [Opcode.evaluateF, Opcode.evalCore, pop_addressF,
      pop_as_bool_with_defaultF, pop_operand, hstack, List.head?,
      FrameAction.act, Opcode.skipsTrailingStep]
    rw [if_pos trivial]
    rfl

/-- Witness for C5: the counterexample frame, through the amended
statement — the jump is taken. -/
theorem C5_ijp_semantics_witness :
    ∃ art, Opcode.evaluateF 1 .Ijp
      ⟨[], Head.default, [.Address ⟨⟨⟨3⟩, ⟨4⟩⟩⟩, .Literal ⟨⟨['1']⟩⟩], ""⟩
      = some (⟨[], ⟨⟨⟨3⟩, ⟨4⟩⟩, .Right⟩, [], ""⟩, art) := by
  have h := C5_ijp_semantics.1 1
    ⟨[], Head.default, [.Address ⟨⟨⟨3⟩, ⟨4⟩⟩⟩, .Literal ⟨⟨['1']⟩⟩], ""⟩
    (.Address ⟨⟨⟨3⟩, ⟨4⟩⟩⟩) (.Literal ⟨⟨['1']⟩⟩) []
    (some ⟨⟨⟨3⟩, ⟨4⟩⟩⟩) ⟨⟨['1']⟩⟩ rfl rfl rfl
  simpa using h

/-! ## C1 : pointer resolution -/

/-- `resolve_to_operand` stops at depth 3: whenever the first two pointed
cells are themselves pointers, the result is the operand of the third
pointed cell, whatever it is. -/
theorem Pointer.resolve_to_operand_depth3 (grid : Grid) (p p1 p2 : Pointer)
    (h1 : Pointer.from_cell (grid.get p.position) = some p1)
    (h2 : Pointer.from_cell (grid.get p1.position) = some p2) :
    p.resolve_to_operand grid = Operand.from_cell (grid.get p2.position) := by
  unfold Pointer.resolve_to_operand Pointer.resolve_recursively
  rw [Pointer.resolveGet.eq_def]
  simp only [h1]
  rw [dif_neg (by decide)]
  rw [Pointer.resolveGet.eq_def]
  simp only [h2]
  rw [dif_neg (by decide)]
  rw [Pointer.resolveGet.eq_def]
  cases h3 : Pointer.from_cell (grid.get p2.position) with
  | none => simp only [h3]
  | some q =>
    simp only [h3]
    rw [dif_pos (by decide)]

/-- **C1.** `resolve_to_operand` always stops at depth 3 (first conjunct,
matching the claim's "yields the operand at depth 3"); but
`resolve_to_literal` does *not* terminate on a cyclic chain: on the grid
holding `"&AA"` at `AA`, resolving the pointer `AA` to a literal runs out
of any amount of fuel (second conjunct) — the depth-capped
`resolve_to_operand` returns the same pointer and
`Operand::resolve_to_literal` re-enters `Pointer::resolve_to_literal` with
the identical argument, an infinite recursion in the source. -/
theorem C1_pointer_resolution :
    (∀ (grid : Grid) (p p1 p2 : Pointer),
      Pointer.from_cell (grid.get p.position) = some p1 →
      Pointer.from_cell (grid.get p1.position) = some p2 →
      p.resolve_to_operand grid = Operand.from_cell (grid.get p2.position)) ∧
    (∀ fuel : Nat,
      resolveToLiteralF [(⟨⟨0⟩, ⟨0⟩⟩, ⟨['&', 'A', 'A']⟩)] fuel
        (.Pointer ⟨⟨⟨0⟩, ⟨0⟩⟩⟩) = none) := by
  constructor
  · exact Pointer.resolve_to_operand_depth3
  · have hcyc : (Pointer.mk ⟨⟨0⟩, ⟨0⟩⟩).resolve_to_operand
        [(⟨⟨0⟩, ⟨0⟩⟩, ⟨['&', 'A', 'A']⟩)] = .Pointer ⟨⟨⟨0⟩, ⟨0⟩⟩⟩ := by
      rw [Pointer.resolve_to_operand_depth3
        [(⟨⟨0⟩, ⟨0⟩⟩, ⟨['&', 'A', 'A']⟩)] ⟨⟨⟨0⟩, ⟨0⟩⟩⟩ ⟨⟨⟨0⟩, ⟨0⟩⟩⟩
        ⟨⟨⟨0⟩, ⟨0⟩⟩⟩ rfl rfl]
      rfl
    intro fuel
    induction fuel with
    | zero => rfl
    | succ n ih =>
      rw [resolveToLiteralF, hcyc]
      exact ih

/-- Witness for C1 (the depth-3 conjunct) on a concrete 4-pointer chain
`AA → AB → AC → AD`, with a literal at `AD`: resolution stops at the cell
of `AC`, the pointer `"&AD"`, not at the literal. -/
theorem C1_pointer_resolution_witness :
    (Pointer.mk ⟨⟨0⟩, ⟨0⟩⟩).resolve_to_operand
      [(⟨⟨0⟩, ⟨0⟩⟩, ⟨['&', 'A', 'B']⟩), (⟨⟨0⟩, ⟨1⟩⟩, ⟨['&', 'A', 'C']⟩),
       (⟨⟨0⟩, ⟨2⟩⟩, ⟨['&', 'A', 'D']⟩), (⟨⟨0⟩, ⟨3⟩⟩, ⟨['5']⟩)]
      = .Pointer ⟨⟨⟨0⟩, ⟨3⟩⟩⟩ ∧
    resolveToLiteralF [(⟨⟨0⟩, ⟨0⟩⟩, ⟨['&', 'A', 'A']⟩)] 7
      (.Pointer ⟨⟨⟨0⟩, ⟨0⟩⟩⟩) = none := by
  constructor
  · rw [C1_pointer_resolution.1
      [(⟨⟨0⟩, ⟨0⟩⟩, ⟨['&', 'A', 'B']⟩), (⟨⟨0⟩, ⟨1⟩⟩, ⟨['&', 'A', 'C']⟩),
       (⟨⟨0⟩, ⟨2⟩⟩, ⟨['&', 'A', 'D']⟩), (⟨⟨0⟩, ⟨3⟩⟩, ⟨['5']⟩)]
      ⟨⟨⟨0⟩, ⟨0⟩⟩⟩ ⟨⟨⟨0⟩, ⟨1⟩⟩⟩ ⟨⟨⟨0⟩, ⟨2⟩⟩⟩ rfl rfl]
    rfl
  · exact C1_pointer_resolution.2 7

/-! ## Toward C2 : observational equality and the produced-artifact relation -/

/-- Get after set behaves as a pointwise update (whether or not the empty
cell removes the key, since absent keys read as the empty cell). -/
theorem Grid.get_set (g : Grid) (p : Position) (c : Cell) (q : Position) :
    (g.set p c).get q = if q = p then c else g.get q := by
  have hfil : ∀ g0 : Grid,
      (g0.filter fun e => ¬ e.1 = p).find? (fun e => decide (e.1 = q))
        = if q = p then none else g0.find? (fun e => decide (e.1 = q)) := by
    intro g0
    induction g0 with
    | nil => by_cases hq : q = p <;> simp [hq]
    | cons e rest ih =>
      by_cases he : e.1 = p
      · rw [List.filter_cons_of_neg (by simp [he]), ih]
        by_cases hq : q = p
        · rw [if_pos hq, if_pos hq]
        · rw [if_neg hq, if_neg hq,
            List.find?_cons_of_neg _
              (by simp only [decide_eq_true_eq]; rw [he]; exact fun h => hq h.symm)]
      · rw [List.filter_cons_of_pos (by simp [he])]
        by_cases heq : e.1 = q
        · have hqp : ¬ q = p := fun hqq => he (heq.trans hqq)
          rw [List.find?_cons_of_pos _ (by simp [heq]),
            List.find?_cons_of_pos _ (by simp [heq]), if_neg hqp]
        · rw [List.find?_cons_of_neg _ (by simp [heq]),
            List.find?_cons_of_neg _ (by simp [heq]), ih]
  unfold Grid.set Grid.get
  by_cases hemp : c.is_empty
  · rw [if_pos hemp]
    have hc : c = Cell.emptyCell := by
      unfold Cell.is_empty at hemp
      cases c with
      | mk chars =>
        simp only [decide_eq_true_eq] at hemp
        rw [hemp]
        rfl
    rw [hfil]
    by_cases hq : q = p
    · rw [if_pos hq, if_pos hq]
      exact hc.symm
    · rw [if_neg hq, if_neg hq]
  · rw [if_neg hemp]
    by_cases hq : q = p
    · rw [List.find?_cons_of_pos _
        (by simp only [decide_eq_true_eq]; exact hq.symm), if_pos hq]
    · rw [List.find?_cons_of_neg _
        (by simp only [decide_eq_true_eq]; exact fun h => hq h.symm),
        hfil, if_neg hq, if_neg hq]

/-- The observational equality of the history-reciprocity claim: same grid
contents, head and stack; the console (an append-only log) is ignored. -/
def Frame.ObsEq (s t : Frame) : Prop :=
  (∀ p, s.grid.get p = t.grid.get p) ∧ s.head = t.head ∧ s.stack = t.stack

theorem Frame.ObsEq.refl (s : Frame) : Frame.ObsEq s s :=
  ⟨fun _ => Eq.refl _, Eq.refl _, Eq.refl _⟩

/-- `stepOrStay` never changes the direction. -/
theorem Head.stepOrStay_direction (h : Head) :
    h.stepOrStay.direction = h.direction := by
  unfold Head.stepOrStay
  cases h.stepPos <;> rfl

/-- The frame after a `StackPop`, in closed form. -/
theorem FrameAction.act_pop_fst (u : Frame) :
    (FrameAction.act .StackPop u).1 = { u with stack := u.stack.tail } := by
  cases u with
  | mk g hd st cons => cases st <;> rfl

/-- `FrameAction::act` is a congruence for observational equality: acting
the same action on observationally equal frames yields observationally
equal frames. -/
theorem actObs (f : FrameAction) {s t : Frame} (h : Frame.ObsEq s t) :
    Frame.ObsEq (f.act s).1 (f.act t).1 := by
  obtain ⟨hg, hh, hs⟩ := h
  cases f with
  | GridSet p c =>
    refine ⟨fun q => ?_, hh, hs⟩
    show (s.grid.set p c).get q = (t.grid.set p c).get q
    rw [Grid.get_set, Grid.get_set]
    by_cases hq : q = p
    · rw [if_pos hq, if_pos hq]
    · rw [if_neg hq, if_neg hq]
      exact hg q
  | StackPush op =>
    exact ⟨hg, hh, by show op :: s.stack = op :: t.stack; rw [hs]⟩
  | StackPop =>
    rw [Frame.ObsEq, FrameAction.act_pop_fst, FrameAction.act_pop_fst]
    exact ⟨hg, hh, by show s.stack.tail = t.stack.tail; rw [hs]⟩
  | HeadMoveTo p =>
    exact ⟨hg, by show s.head.move_to p = t.head.move_to p; rw [hh], hs⟩
  | HeadDirectTo d =>
    exact ⟨hg, by show s.head.direct_to d = t.head.direct_to d; rw [hh], hs⟩
  | HeadStep =>
    exact ⟨hg, by show s.head.stepOrStay = t.head.stepOrStay; rw [hh], hs⟩
  | ConsolePrint str =>
    exact ⟨hg, hh, hs⟩

/-- Artifacts produced against a frame: one `FrameAction::act` call, the
empty artifact, or a sequential composition (`Artifact::push`) where the
second part is produced against the state the first part left behind.
Every artifact built by `FrameAction::act`, `Opcode::evaluate` or
`Frame::step` is of this shape. -/
inductive Produced : Frame → Artifact → Frame → Prop
  | act (f : FrameAction) (fr : Frame) :
      Produced fr (f.act fr).2 (f.act fr).1
  | empty (fr : Frame) : Produced fr [] fr
  | comp {fr fr1 fr2 : Frame} {a b : Artifact} :
      Produced fr a fr1 → Produced fr1 b fr2 → Produced fr (a ++ b) fr2

theorem redoApply_append (a b : Artifact) (fr : Frame) :
    redoApply (a ++ b) fr = redoApply b (redoApply a fr) := by
  unfold redoApply
  rw [List.foldl_append]

theorem undoApply_append (a b : Artifact) (fr : Frame) :
    undoApply (a ++ b) fr = undoApply a (undoApply b fr) := by
  unfold undoApply
  rw [List.foldr_append]

/-- The redo half of a single `act` artifact is always the action itself,
so replaying it against any frame is acting the action. -/
theorem redoApply_act (f : FrameAction) (fr t : Frame) :
    redoApply (f.act fr).2 t = (f.act t).1 := by
  cases f with
  | StackPop =>
    cases fr with
    | mk g hd st cons => cases st <;> rfl
  | GridSet p c => rfl
  | StackPush op => rfl
  | HeadMoveTo p => rfl
  | HeadDirectTo d => rfl
  | HeadStep => rfl
  | ConsolePrint str => rfl

/-- Replaying a produced artifact's redos from any observationally equal
start reaches an observationally equal end. -/
theorem prodRedo {fr fr' : Frame} {a : Artifact} (hp : Produced fr a fr') :
    ∀ t, Frame.ObsEq t fr → Frame.ObsEq (redoApply a t) fr' := by
  induction hp with
  | act f fr =>
    intro t ht
    rw [redoApply_act]
    exact actObs f ht
  | empty fr => intro t ht; exact ht
  | comp h1 h2 ih1 ih2 =>
    intro t ht
    rw [redoApply_append]
    exact ih2 _ (ih1 _ ht)

/-- Undoing a produced artifact (undos replayed in reverse order) from any
observationally equal end state reaches the start state, observationally. -/
theorem prodUndo {fr fr' : Frame} {a : Artifact} (hp : Produced fr a fr') :
    ∀ t, Frame.ObsEq t fr' → Frame.ObsEq (undoApply a t) fr := by
  induction hp with
  | act f fr =>
    intro t ht
    cases f with
    | GridSet p c =>
      have hg : ∀ q, t.grid.get q = (fr.grid.set p c).get q := ht.1
      have hh : t.head = fr.head := ht.2.1
      have hs : t.stack = fr.stack := ht.2.2
      show Frame.ObsEq (FrameAction.act (.GridSet p (fr.grid.get p)) t).1 fr
      refine ⟨fun q => ?_, hh, hs⟩
      show (t.grid.set p (fr.grid.get p)).get q = fr.grid.get q
      rw [Grid.get_set]
      by_cases hq : q = p
      · rw [if_pos hq, hq]
      · rw [if_neg hq]
        have hgq := hg q
        rw [Grid.get_set, if_neg hq] at hgq
        exact hgq
    | StackPush op =>
      have hg : ∀ q, t.grid.get q = fr.grid.get q := ht.1
      have hh : t.head = fr.head := ht.2.1
      have hs : t.stack = op :: fr.stack := ht.2.2
      show Frame.ObsEq (FrameAction.act .StackPop t).1 fr
      rw [FrameAction.act_pop_fst]
      refine ⟨hg, hh, ?_⟩
      show t.stack.tail = fr.stack
      rw [hs]
      rfl
    | StackPop =>
      cases fr with
      | mk g hd st cons =>
        cases st with
        | nil => exact ht
        | cons x rest =>
          have hg : ∀ q, t.grid.get q = Grid.get g q := ht.1
          have hh : t.head = hd := ht.2.1
          have hs : t.stack = rest := ht.2.2
          show Frame.ObsEq (FrameAction.act (.StackPush x) t).1
            ⟨g, hd, x :: rest, cons⟩
          refine ⟨hg, hh, ?_⟩
          show x :: t.stack = x :: rest
          rw [hs]
    | HeadMoveTo p =>
      have hg : ∀ q, t.grid.get q = fr.grid.get q := ht.1
      have hh : t.head = fr.head.move_to p := ht.2.1
      have hs : t.stack = fr.stack := ht.2.2
      show Frame.ObsEq (FrameAction.act (.HeadMoveTo fr.head.position) t).1 fr
      refine ⟨hg, ?_, hs⟩
      have hd : t.head.direction = fr.head.direction := by rw [hh]; rfl
      show Head.mk fr.head.position t.head.direction = fr.head
      rw [hd]
    | HeadDirectTo d =>
      have hg : ∀ q, t.grid.get q = fr.grid.get q := ht.1
      have hh : t.head = fr.head.direct_to d := ht.2.1
      have hs : t.stack = fr.stack := ht.2.2
      show Frame.ObsEq (FrameAction.act (.HeadDirectTo fr.head.direction) t).1 fr
      refine ⟨hg, ?_, hs⟩
      have hp : t.head.position = fr.head.position := by rw [hh]; rfl
      show Head.mk t.head.position fr.head.direction = fr.head
      rw [hp]
    | HeadStep =>
      have hg : ∀ q, t.grid.get q = fr.grid.get q := ht.1
      have hh : t.head = fr.head.stepOrStay := ht.2.1
      have hs : t.stack = fr.stack := ht.2.2
      show Frame.ObsEq (FrameAction.act (.HeadMoveTo fr.head.position) t).1 fr
      refine ⟨hg, ?_, hs⟩
      have hd : t.head.direction = fr.head.direction := by
        rw [hh]
        exact Head.stepOrStay_direction fr.head
      show Head.mk fr.head.position t.head.direction = fr.head
      rw [hd]
    | ConsolePrint str =>
      exact ht
  | empty fr => intro t ht; exact ht
  | comp h1 h2 ih1 ih2 =>
    intro t ht
    rw [undoApply_append]
    exact ih1 _ (ih2 _ ht)

/-! ### Every opcode evaluation and step produces a `Produced` artifact -/

theorem pop_operand_produced {fr : Frame} {res : Option Operand} {fr' : Frame}
    {art : Artifact} (h : pop_operand fr = (res, fr', art)) :
    Produced fr art fr' := by
  unfold pop_operand at h
  split at h
  · cases h
    exact Produced.act .StackPop fr
  · cases h
    exact Produced.empty fr

theorem pop_literalF_produced {fuel : Nat} {fr : Frame} {res : Option Literal}
    {fr' : Frame} {art : Artifact}
    (h : pop_literalF fuel fr = some (res, fr', art)) : Produced fr art fr' := by
  unfold pop_literalF at h
  split at h
  · rename_i operand frame1 artifact heq
    cases hres : resolveToLiteralF frame1.grid fuel operand <;> rw [hres] at h
    · simp at h
    · simp only [Option.map_some', Option.some_inj, Prod.mk.injEq] at h
      obtain ⟨h1, h2, h3⟩ := h
      subst h2
      subst h3
      exact pop_operand_produced heq
  · rename_i frame1 artifact heq
    simp only [Option.some_inj, Prod.mk.injEq] at h
    obtain ⟨h1, h2, h3⟩ := h
    subst h2
    subst h3
    exact pop_operand_produced heq

theorem pop_addressF_produced {fuel : Nat} {fr : Frame} {res : Option Address}
    {fr' : Frame} {art : Artifact}
    (h : pop_addressF fuel fr = some (res, fr', art)) : Produced fr art fr' := by
  unfold pop_addressF at h
  split at h
  · rename_i operand frame1 artifact heq
    cases hres : resolveToAddressF frame1.grid fuel operand <;> rw [hres] at h
    · simp at h
    · simp only [Option.map_some', Option.some_inj, Prod.mk.injEq] at h
      obtain ⟨h1, h2, h3⟩ := h
      subst h2
      subst h3
      exact pop_operand_produced heq
  · rename_i frame1 artifact heq
    simp only [Option.some_inj, Prod.mk.injEq] at h
    obtain ⟨h1, h2, h3⟩ := h
    subst h2
    subst h3
    exact pop_operand_produced heq

theorem pop_as_numeric_with_defaultF_produced {fuel : Nat} {fr : Frame}
    {res : Nat} {fr' : Frame} {art : Artifact}
    (h : pop_as_numeric_with_defaultF fuel fr = some (res, fr', art)) :
    Produced fr art fr' := by
  unfold pop_as_numeric_with_defaultF at h
  split at h
  · rename_i operand frame1 artifact heq
    cases hres : resolveToLiteralF frame1.grid fuel operand <;> rw [hres] at h
    · simp at h
    · simp only [Option.map_some', Option.some_inj, Prod.mk.injEq] at h
      obtain ⟨h1, h2, h3⟩ := h
      subst h2
      subst h3
      exact pop_operand_produced heq
  · rename_i frame1 artifact heq
    simp only [Option.some_inj, Prod.mk.injEq] at h
    obtain ⟨h1, h2, h3⟩ := h
    subst h2
    subst h3
    exact pop_operand_produced heq

theorem pop_as_boolF_produced {fuel : Nat} {fr : Frame} {res : Option Bool}
    {fr' : Frame} {art : Artifact}
    (h : pop_as_boolF fuel fr = some (res, fr', art)) : Produced fr art fr' := by
  unfold pop_as_boolF at h
  split at h
  · rename_i operand frame1 artifact heq
    cases hres : resolveToLiteralF frame1.grid fuel operand <;> rw [hres] at h
    · simp at h
    · simp only [Option.map_some', Option.some_inj, Prod.mk.injEq] at h
      obtain ⟨h1, h2, h3⟩ := h
      subst h2
      subst h3
      exact pop_operand_produced heq
  · rename_i frame1 artifact heq
    simp only [Option.some_inj, Prod.mk.injEq] at h
    obtain ⟨h1, h2, h3⟩ := h
    subst h2
    subst h3
    exact pop_operand_produced heq

theorem pop_as_bool_with_defaultF_produced {fuel : Nat} {fr : Frame}
    {res : Bool} {fr' : Frame} {art : Artifact}
    (h : pop_as_bool_with_defaultF fuel fr = some (res, fr', art)) :
    Produced fr art fr' := by
  unfold pop_as_bool_with_defaultF at h
  split at h
  · rename_i operand frame1 artifact heq
    cases hres : resolveToLiteralF frame1.grid fuel operand <;> rw [hres] at h
    · simp at h
    · simp only [Option.map_some', Option.some_inj, Prod.mk.injEq] at h
      obtain ⟨h1, h2, h3⟩ := h
      subst h2
      subst h3
      exact pop_operand_produced heq
  · rename_i frame1 artifact heq
    simp only [Option.some_inj, Prod.mk.injEq] at h
    obtain ⟨h1, h2, h3⟩ := h
    subst h2
    subst h3
    exact pop_operand_produced heq

/-- Every successful `Opcode::evaluate` body produces its artifact in the
sense of `Produced`. -/
theorem evalCore_produced {fuel : Nat} {op : Opcode} {fr : Frame}
    {out : Frame × Artifact} (h : Opcode.evalCore fuel op fr = some out) :
    Produced fr out.2 out.1 := by
  cases op <;> simp only [Opcode.evalCore] at h
  case Nop =>
    cases h
    exact Produced.empty fr
  case Hlt =>
    exact absurd h (by simp)
  case Dbg =>
    cases h
    exact Produced.empty fr
  case Gou =>
    cases h
    exact Produced.act _ fr
  case Gor =>
    cases h
    exact Produced.act _ fr
  case God =>
    cases h
    exact Produced.act _ fr
  case Gol =>
    cases h
    exact Produced.act _ fr
  case Jmp =>
    split at h
    · split at h
      · exact absurd h (by simp)
      · split at h
        · cases h
          exact Produced.comp (Produced.act .StackPop fr) (Produced.act _ _)
        · cases h
          exact Produced.act .StackPop fr
    · cases h
      exact Produced.act .StackPop fr
  case Igu =>
    split at h
    · exact absurd h (by simp)
    · rename_i value_res frame1 artifact heq
      split at h
      · cases h
        exact Produced.comp (pop_as_boolF_produced heq) (Produced.act _ _)
      · cases h
        exact pop_as_boolF_produced heq
  case Igr =>
    split at h
    · exact absurd h (by simp)
    · rename_i value_res frame1 artifact heq
      split at h
      · cases h
        exact Produced.comp (pop_as_boolF_produced heq) (Produced.act _ _)
      · cases h
        exact pop_as_boolF_produced heq
  case Igd =>
    split at h
    · exact absurd h (by simp)
    · rename_i value_res frame1 artifact heq
      split at h
      · cases h
        exact Produced.comp (pop_as_boolF_produced heq) (Produced.act _ _)
      · cases h
        exact pop_as_boolF_produced heq
  case Igl =>
    split at h
    · exact absurd h (by simp)
    · rename_i value_res frame1 artifact heq
      split at h
      · cases h
        exact Produced.comp (pop_as_boolF_produced heq) (Produced.act _ _)
      · cases h
        exact pop_as_boolF_produced heq
  case Ijp =>
    split at h
    · exact absurd h (by simp)
    · rename_i address_res frame1 artifact heq
      split at h
      · exact absurd h (by simp)
      · rename_i operand frame2 ope_artifact heq2
        split at h
        · cases h
          exact Produced.comp
            (Produced.comp (pop_addressF_produced heq)
              (pop_as_bool_with_defaultF_produced heq2))
            (Produced.act _ _)
        · cases h
          exact Produced.comp (pop_addressF_produced heq)
            (pop_as_bool_with_defaultF_produced heq2)
  case Equ =>
    split at h
    · exact absurd h (by simp)
    · rename_i rhs_res frame1 artifact heq
      split at h
      · exact absurd h (by simp)
      · rename_i lhs_res frame2 lhs_artifact heq2
        cases h
        exact Produced.comp
          (Produced.comp (pop_literalF_produced heq)
            (pop_literalF_produced heq2))
          (Produced.act _ _)
  case Neq =>
    split at h
    · exact absurd h (by simp)
    · rename_i rhs_res frame1 artifact heq
      split at h
      · exact absurd h (by simp)
      · rename_i lhs_res frame2 lhs_artifact heq2
        cases h
        exact Produced.comp
          (Produced.comp (pop_literalF_produced heq)
            (pop_literalF_produced heq2))
          (Produced.act _ _)
  case Grt =>
    split at h
    · exact absurd h (by simp)
    · rename_i rhs frame1 artifact heq
      split at h
      · exact absurd h (by simp)
      · rename_i lhs frame2 lhs_artifact heq2
        cases h
        exact Produced.comp
          (Produced.comp (pop_as_numeric_with_defaultF_produced heq)
            (pop_as_numeric_with_defaultF_produced heq2))
          (Produced.act _ _)
  case Lst =>
    split at h
    · exact absurd h (by simp)
    · rename_i rhs frame1 artifact heq
      split at h
      · exact absurd h (by simp)
      · rename_i lhs frame2 lhs_artifact heq2
        cases h
        exact Produced.comp
          (Produced.comp (pop_as_numeric_with_defaultF_produced heq)
            (pop_as_numeric_with_defaultF_produced heq2))
          (Produced.act _ _)
  case Grq =>
    split at h
    · exact absurd h (by simp)
    · rename_i rhs frame1 artifact heq
      split at h
      · exact absurd h (by simp)
      · rename_i lhs frame2 lhs_artifact heq2
        cases h
        exact Produced.comp
          (Produced.comp (pop_as_numeric_with_defaultF_produced heq)
            (pop_as_numeric_with_defaultF_produced heq2))
          (Produced.act _ _)
  case Lsq =>
    split at h
    · exact absurd h (by simp)
    · rename_i rhs frame1 artifact heq
      split at h
      · exact absurd h (by simp)
      · rename_i lhs frame2 lhs_artifact heq2
        cases h
        exact Produced.comp
          (Produced.comp (pop_as_numeric_with_defaultF_produced heq)
            (pop_as_numeric_with_defaultF_produced heq2))
          (Produced.act _ _)
  case Add =>
    split at h
    · exact absurd h (by simp)
    · rename_i rhs frame1 artifact heq
      split at h
      · exact absurd h (by simp)
      · rename_i lhs frame2 lhs_artifact heq2
        cases h
        exact Produced.comp
          (Produced.comp (pop_as_numeric_with_defaultF_produced heq)
            (pop_as_numeric_with_defaultF_produced heq2))
          (Produced.act _ _)
  case Sub =>
    split at h
    · exact absurd h (by simp)
    · rename_i rhs frame1 artifact heq
      split at h
      · exact absurd h (by simp)
      · rename_i lhs frame2 lhs_artifact heq2
        cases h
        exact Produced.comp
          (Produced.comp (pop_as_numeric_with_defaultF_produced heq)
            (pop_as_numeric_with_defaultF_produced heq2))
          (Produced.act _ _)
  case Mul =>
    split at h
    · exact absurd h (by simp)
    · rename_i rhs frame1 artifact heq
      split at h
      · exact absurd h (by simp)
      · rename_i lhs frame2 lhs_artifact heq2
        cases h
        exact Produced.comp
          (Produced.comp (pop_as_numeric_with_defaultF_produced heq)
            (pop_as_numeric_with_defaultF_produced heq2))
          (Produced.act _ _)
  case Div =>
    split at h
    · exact absurd h (by simp)
    · rename_i rhs frame1 artifact heq
      split at h
      · exact absurd h (by simp)
      · rename_i lhs frame2 lhs_artifact heq2
        cases h
        exact Produced.comp
          (Produced.comp (pop_as_numeric_with_defaultF_produced heq)
            (pop_as_numeric_with_defaultF_produced heq2))
          (Produced.act _ _)
  case Set =>
    split at h
    · exact absurd h (by simp)
    · rename_i address_res frame1 artifact heq
      split at h
      · exact absurd h (by simp)
      · rename_i literal_res frame2 lit_artifact heq2
        split at h
        · cases h
          exact Produced.comp
            (Produced.comp (pop_addressF_produced heq)
              (pop_literalF_produced heq2))
            (Produced.act _ _)
        · cases h
          exact Produced.comp (pop_addressF_produced heq)
            (pop_literalF_produced heq2)
  case Prt =>
    split at h
    · rename_i operand frame1 artifact heq
      cases h
      exact Produced.comp (pop_operand_produced heq) (Produced.act _ _)
    · rename_i frame1 artifact heq
      cases h
      exact pop_operand_produced heq

/-- Every successful `Opcode::evaluate` (trailing `HeadStep` included)
produces its artifact. -/
theorem evaluateF_produced {fuel : Nat} {op : Opcode} {fr : Frame}
    {out : Frame × Artifact} (h : Opcode.evaluateF fuel op fr = some out) :
    Produced fr out.2 out.1 := by
  unfold Opcode.evaluateF at h
  split at h
  · exact absurd h (by simp)
  · rename_i frame1 artifact heq
    split at h
    · cases h
      exact evalCore_produced heq
    · cases h
      exact Produced.comp (evalCore_produced heq) (Produced.act _ _)

/-- Every successful `Frame::step` produces its artifact. -/
theorem stepF_produced {fuel : Nat} {fr : Frame} {out : Frame × Artifact}
    (h : Frame.stepF fuel fr = some out) : Produced fr out.2 out.1 := by
  simp only [Frame.stepF] at h
  split at h
  · cases h
    exact Produced.act .HeadStep fr
  · split at h
    · exact evaluateF_produced h
    · cases h
      exact Produced.comp (Produced.act _ _) (Produced.act _ _)

/-! ### The chain of produced artifacts and the undo/redo round trip -/

/-- An artifact produced by one `FrameAction::act` call or one successful
`Frame::step`, as in the claim. -/
def ProducedByActOrStep (fr : Frame) (a : Artifact) (fr' : Frame) : Prop :=
  (∃ f : FrameAction, f.act fr = (fr', a)) ∨
  (∃ fuel, Frame.stepF fuel fr = some (fr', a))

theorem producedByActOrStep_produced {fr : Frame} {a : Artifact} {fr' : Frame}
    (h : ProducedByActOrStep fr a fr') : Produced fr a fr' := by
  rcases h with ⟨f, hf⟩ | ⟨fuel, hf⟩
  · have hp := Produced.act f fr
    rw [hf] at hp
    exact hp
  · exact stepF_produced hf

/-- A run: each artifact is produced (by `act` or `step`) against the frame
the previous one left behind. -/
inductive ArtifactChain : Frame → List Artifact → Frame → Prop
  | nil (fr : Frame) : ArtifactChain fr [] fr
  | cons {fr fr1 fr2 : Frame} {a : Artifact} {rest : List Artifact} :
      ProducedByActOrStep fr a fr1 → ArtifactChain fr1 rest fr2 →
      ArtifactChain fr (a :: rest) fr2

theorem chainUndo {s s' : Frame} {as : List Artifact}
    (hc : ArtifactChain s as s') :
    ∀ t, Frame.ObsEq t s' → Frame.ObsEq (List.foldr undoApply t as) s := by
  induction hc with
  | nil fr => intro t ht; exact ht
  | cons hp hrest ih =>
    intro t ht
    exact prodUndo (producedByActOrStep_produced hp) _ (ih t ht)

theorem chainRedo {s s' : Frame} {as : List Artifact}
    (hc : ArtifactChain s as s') :
    ∀ t, Frame.ObsEq t s →
      Frame.ObsEq (List.foldl (fun fr a => redoApply a fr) t as) s' := by
  induction hc with
  | nil fr => intro t ht; exact ht
  | cons hp hrest ih =>
    intro t ht
    exact ih _ (prodRedo (producedByActOrStep_produced hp) t ht)

/-- Appending every artifact of a run to a `History`. -/
def History.appendAll (h : History) (as : List Artifact) : History :=
  as.foldl History.append h

/-- `n` calls of `History::undo`, threading history and frame. -/
def undoN : Nat → History × Frame → History × Frame
  | 0, x => x
  | k + 1, x =>
    let r := History.undo x.1 x.2
    undoN k (r.1, r.2.1)

/-- `n` calls of `History::redo`, threading history and frame. -/
def redoN : Nat → History × Frame → History × Frame
  | 0, x => x
  | k + 1, x =>
    let r := History.redo x.1 x.2
    redoN k (r.1, r.2.1)

theorem appendAll_from_full (l : List Artifact) (as : List Artifact)
    (hne : ∀ a ∈ as, ¬ a = []) :
    History.appendAll ⟨l, l.length⟩ as = ⟨l ++ as, (l ++ as).length⟩ := by
  induction as generalizing l with
  | nil => simp [History.appendAll]
  | cons a rest ih =>
    have ha : ¬ a = [] := hne a (List.mem_cons_self a rest)
    show History.appendAll (History.append ⟨l, l.length⟩ a) rest = _
    have happ : History.append ⟨l, l.length⟩ a
        = ⟨l ++ [a], (l ++ [a]).length⟩ := by
      unfold History.append
      rw [if_neg ha, List.take_length]
      simp
    rw [happ, ih (l ++ [a]) (fun x hx => hne x (List.mem_cons_of_mem a hx))]
    simp

theorem undoN_spec (as : List Artifact) :
    ∀ (k : Nat) (t : Frame), k ≤ as.length →
    undoN k (⟨as, k⟩, t) = (⟨as, 0⟩, List.foldr undoApply t (as.take k)) := by
  intro k
  induction k with
  | zero => intro t hk; simp [undoN]
  | succ j ih =>
    intro t hk
    have hj : j < as.length := hk
    have hget : as[j]? = some as[j] := List.getElem?_eq_getElem hj
    have hu : History.undo ⟨as, j + 1⟩ t
        = (⟨as, j⟩, undoApply (as[j]) t, as[j]) := by
      unfold History.undo
      simp only [hget]
    show undoN j ((History.undo ⟨as, j + 1⟩ t).1,
      (History.undo ⟨as, j + 1⟩ t).2.1) = _
    rw [hu]
    rw [ih (undoApply (as[j]) t) (Nat.le_of_lt hj)]
    rw [List.take_succ, hget]
    rw [List.foldr_append]
    rfl

theorem redoN_spec (as : List Artifact) :
    ∀ (k j : Nat) (t : Frame), j + k ≤ as.length →
    redoN k (⟨as, j⟩, t)
      = (⟨as, j + k⟩,
         List.foldl (fun fr a => redoApply a fr) t ((as.drop j).take k)) := by
  intro k
  induction k with
  | zero => intro j t hk; simp [redoN]
  | succ m ih =>
    intro j t hk
    have hj : j < as.length := by omega
    have hget : as[j]? = some as[j] := List.getElem?_eq_getElem hj
    have hr : History.redo ⟨as, j⟩ t
        = (⟨as, j + 1⟩, redoApply (as[j]) t, as[j]) := by
      unfold History.redo
      simp only [hget]
    show redoN m ((History.redo ⟨as, j⟩ t).1,
      (History.redo ⟨as, j⟩ t).2.1) = _
    rw [hr]
    rw [ih (j + 1) (redoApply (as[j]) t) (by omega)]
    have hdrop : as.drop j = as[j] :: as.drop (j + 1) :=
      List.drop_eq_getElem_cons hj
    rw [hdrop]
    rw [List.take_succ_cons]
    have hcur : j + 1 + m = j + (m + 1) := by omega
    rw [hcur]
    rfl

/-! ## C2 : history reciprocity -/

/-- **C2.** For any run producing `n` non-empty artifacts (each by
`FrameAction::act` or `Frame::step`) appended in order to a fresh history,
`n` undos followed by `n` redos return the frame to a state whose grid
contents, head and stack agree with the state right after the `n`-th
artifact (the console is ignored). -/
theorem C2_history_reciprocity (s0 sN : Frame) (as : List Artifact)
    (hchain : ArtifactChain s0 as sN) (hne : ∀ a ∈ as, ¬ a = []) :
    Frame.ObsEq
      (redoN as.length (undoN as.length
        (History.appendAll History.empty as, sN))).2 sN := by
  have happ : History.appendAll History.empty as = ⟨as, as.length⟩ := by
    have h0 := appendAll_from_full [] as hne
    simpa using h0
  rw [happ]
  rw [undoN_spec as as.length sN (Nat.le_refl _)]
  rw [redoN_spec as as.length 0 _ (by omega)]
  rw [List.take_length, List.drop_zero, List.take_length]
  exact chainRedo hchain _ (chainUndo hchain sN (Frame.ObsEq.refl sN))

/-- Witness for C2: one artifact, produced by pushing the literal `"5"`
onto the default frame. -/
theorem C2_history_reciprocity_witness :
    Frame.ObsEq
      (redoN 1 (undoN 1
        (History.appendAll History.empty
          [[⟨some (.StackPush (.Literal ⟨⟨['5']⟩⟩)), some .StackPop⟩]],
         ⟨[], Head.default, [.Literal ⟨⟨['5']⟩⟩], ""⟩))).2
      ⟨[], Head.default, [.Literal ⟨⟨['5']⟩⟩], ""⟩ :=
  C2_history_reciprocity Frame.default
    ⟨[], Head.default, [.Literal ⟨⟨['5']⟩⟩], ""⟩
    [[⟨some (.StackPush (.Literal ⟨⟨['5']⟩⟩)), some .StackPop⟩]]
    (ArtifactChain.cons
      (Or.inl ⟨.StackPush (.Literal ⟨⟨['5']⟩⟩), rfl⟩)
      (ArtifactChain.nil _))
    (by
      intro a ha
      rw [List.mem_singleton] at ha
      subst ha
      simp)
